import Mathlib

/-!
Verification development for the viral-clips content pipeline
(classification, grouping/clustering, and upload routing).

The Python source is shallowly embedded: dataclasses become structures,
SQLite rows become lists of structures inside a `DB` state record, floats
become rationals, datetimes become integers (minutes or days since an
epoch, as appropriate), and every stateful operation becomes an explicit
state-passing function.  External effects (the LLM scoring oracle, the
`re` regex engine, UUID generation, configuration files loaded at
runtime) are passed in as explicit parameters so that the embedded
functions stay pure and executable.
-/

/-! ## A stable sort

Python's `sorted` and SQLite's `ORDER BY` are modelled by a stable
insertion sort parameterised by a boolean "may come before" relation
`le` (total, and true on ties, so the result of a stable sort under it
is the same list Python's stable sort produces).  It is structurally
recursive so that concrete runs of the embedded operations reduce inside
the kernel. -/

/-- Insert `a` before the first element `b` with `le a b`. -/
def stable_insert (le : α → α → Bool) (a : α) : List α → List α
  | [] => [a]
  | b :: l => if le a b then a :: b :: l else b :: stable_insert le a l

/-- Stable insertion sort. -/
def stable_sort (le : α → α → Bool) : List α → List α
  | [] => []
  | a :: l => stable_insert le a (stable_sort le l)

theorem stable_insert_perm (le : α → α → Bool) (a : α) (l : List α) :
    List.Perm (stable_insert le a l) (a :: l) := by
  induction l with
  | nil => simp [stable_insert]
  | cons b l ih =>
    simp only [stable_insert]
    split
    · exact List.Perm.refl _
    · exact List.Perm.trans (List.Perm.cons b ih) (List.Perm.swap a b l)

theorem stable_sort_perm (le : α → α → Bool) (l : List α) :
    List.Perm (stable_sort le l) l := by
  induction l with
  | nil => simp [stable_sort]
  | cons a l ih =>
    exact List.Perm.trans (stable_insert_perm le a (stable_sort le l))
      (List.Perm.cons a ih)

theorem mem_stable_sort (le : α → α → Bool) {a : α} {l : List α} :
    a ∈ stable_sort le l ↔ a ∈ l :=
  (stable_sort_perm le l).mem_iff

theorem stable_sort_length (le : α → α → Bool) (l : List α) :
    (stable_sort le l).length = l.length :=
  (stable_sort_perm le l).length_eq

theorem pairwise_stable_insert (le : α → α → Bool)
    (total : ∀ a b, le a b || le b a)
    (trans : ∀ a b c, le a b = true → le b c = true → le a c = true)
    (a : α) (l : List α)
    (h : List.Pairwise (fun x y => le x y = true) l) :
    List.Pairwise (fun x y => le x y = true) (stable_insert le a l) := by
  induction l with
  | nil => simp [stable_insert]
  | cons b l ih =>
    simp only [stable_insert]
    rcases h with _ | ⟨hb, hl⟩
    split
    case isTrue hab =>
      refine List.Pairwise.cons ?_ (List.Pairwise.cons hb hl)
      intro x hx
      rcases List.mem_cons.mp hx with rfl | hx
      · exact hab
      · exact trans a b x hab (hb x hx)
    case isFalse hab =>
      have key : le b a = true := by
        have := total a b
        simp only [Bool.or_eq_true] at this
        exact this.resolve_left hab
      refine List.Pairwise.cons ?_ (ih hl)
      intro x hx
      rcases List.mem_cons.mp ((stable_insert_perm le a l).mem_iff.mp hx) with heq | hx
      · rw [heq]
        exact key
      · exact hb x hx

theorem pairwise_stable_sort (le : α → α → Bool)
    (total : ∀ a b, le a b || le b a)
    (trans : ∀ a b c, le a b = true → le b c = true → le a c = true)
    (l : List α) :
    List.Pairwise (fun x y => le x y = true) (stable_sort le l) := by
  induction l with
  | nil => simp [stable_sort]
  | cons a l ih => exact pairwise_stable_insert le total trans a _ ih

/-- Dot-notation wrapper: `l.sorted_by le` is `stable_sort le l`. -/
def List.sorted_by (l : List α) (le : α → α → Bool) : List α :=
  stable_sort le l

namespace Pipeline


/-- Video lifecycle status, from `core/models.py` (`VideoStatus`). -/
inductive VideoStatus
  | discovered
  | downloaded
  | classified
  | grouped
  | used
  | failed
  | skipped
deriving DecidableEq, Repr

/-- Compilation lifecycle status, from `core/models.py` (`CompilationStatus`). -/
inductive CompilationStatus
  | pending
  | rendering
  | review
  | approved
  | uploaded
  | rejected
deriving DecidableEq, Repr

/-- Upload platform, from `core/models.py` (`Platform`). -/
inductive Platform
  | youtube
  | tiktok
deriving DecidableEq, Repr

/-- Account content strategy, from `core/models.py` (`ContentStrategy`). -/
inductive ContentStrategy
  | fails
  | comedy
  | mixed
deriving DecidableEq, Repr

/-- Upload job status, from `core/models.py` (`UploadStatus`). -/
inductive UploadStatus
  | pending
  | uploading
  | success
  | failed
deriving DecidableEq, Repr

/-- A TikTok video candidate, from `core/models.py` (`Video`).
Engagement counters are integers, scores are rationals standing in for
the Python floats, and `created_at` is a whole number of days since an
epoch (only day-granularity recency is ever computed from it). -/
structure Video where
  id : String
  description : String := ""
  author : String := ""
  hashtags : List String := []
  plays : Int := 0
  likes : Int := 0
  shares : Int := 0
  status : VideoStatus := .discovered
  duration : Rat := 0
  category : String := ""
  subcategory : String := ""
  category_confidence : Rat := 0
  classification_reasoning : String := ""
  compilation_score : Rat := 0
  visual_independence : Rat := 0
  is_source_compilation : Bool := false
  compilation_type : String := ""
  compilation_id : String := ""
  clip_order : Nat := 0
  error : String := ""
  created_at : Int := 0
deriving DecidableEq, Repr

/-- Engagement ranking proxy, from `core/models.py`
(`Video.engagement_score`): `likes + shares * 2`. -/
def Video.engagement_score (v : Video) : Int :=
  v.likes + v.shares * 2

/-- A compilation of videos, from `core/models.py` (`Compilation`),
restricted to the fields the verified operations read or write. -/
structure Compilation where
  id : String
  category : String
  title : String := ""
  description : String := ""
  video_ids : List String := []
  status : CompilationStatus := .pending
  confidence_score : Rat := 0
  auto_approved : Bool := false
  created_at : Int := 0
deriving DecidableEq, Repr

/-- A platform account, from `core/models.py` (`Account`).
`last_upload_at` is minutes since an epoch (UTC), matching the
minute-granularity cool-down comparison in the router. -/
structure Account where
  id : String
  platform : Platform
  name : String := ""
  content_strategy : ContentStrategy := .mixed
  credentials_encrypted : String := ""
  daily_upload_limit : Int := 6
  uploads_today : Int := 0
  last_upload_at : Option Int := none
  is_active : Bool := true
deriving DecidableEq, Repr

/-- A routing rule, from `core/models.py` (`RoutingRule`). -/
structure RoutingRule where
  id : String
  account_id : String
  category : String
  min_confidence : Rat := 7/10
  priority : Int := 1
deriving DecidableEq, Repr

/-- An upload job, from `core/models.py` (`Upload`). -/
structure Upload where
  id : String
  compilation_id : String
  account_id : String
  platform : Platform
  status : UploadStatus := .pending
  retry_count : Nat := 0
  scheduled_at : Option Int := none
  created_at : Int := 0
deriving DecidableEq, Repr

/-- The persistent store (`core/database.py`): one list per SQLite table. -/
structure DB where
  videos : List Video := []
  compilations : List Compilation := []
  accounts : List Account := []
  uploads : List Upload := []
  routing_rules : List RoutingRule := []
deriving DecidableEq, Repr

/-! ## Database layer (`core/database.py`) -/

/-- `Database.update_video`: `UPDATE videos SET ... WHERE id = ?`. -/
def update_video (db : DB) (v : Video) : DB :=
  { db with videos := db.videos.map fun w => if w.id = v.id then v else w }

/-- `Database.get_video`: `SELECT * FROM videos WHERE id = ?`. -/
def get_video (db : DB) (video_id : String) : Option Video :=
  db.videos.find? fun v => v.id == video_id

/-- `Database.insert_compilation`: `INSERT INTO compilations ...`; fails
(returns `none`, standing for the Python `False`) on a duplicate primary
key. -/
def insert_compilation (db : DB) (c : Compilation) : Option DB :=
  if db.compilations.any (fun c0 => c0.id == c.id) then none
  else some { db with compilations := db.compilations ++ [c] }

/-- `Database.get_compilation`: `SELECT * FROM compilations WHERE id = ?`. -/
def get_compilation (db : DB) (compilation_id : String) : Option Compilation :=
  db.compilations.find? fun c => c.id == compilation_id

/-- `Database.get_compilations_by_status`: `SELECT * FROM compilations
WHERE status = ? ORDER BY created_at DESC`. -/
def get_compilations_by_status (db : DB) (s : CompilationStatus) : List Compilation :=
  (db.compilations.filter fun c => c.status == s).sorted_by
    fun a b => decide (b.created_at ≤ a.created_at)

/-- `Database.delete_compilation`: clears `compilation_id`, resets
`clip_order` to 0 and sets status `classified` on every video assigned to
the compilation, then deletes the compilation row. -/
def delete_compilation (db : DB) (compilation_id : String) : DB :=
  { db with
    videos := db.videos.map fun v =>
      if v.compilation_id = compilation_id then
        { v with compilation_id := "", clip_order := 0, status := .classified }
      else v,
    compilations := db.compilations.filter fun c => c.id != compilation_id }

/-- `Database.get_videos_by_category` as the grouper calls it
(`status=CLASSIFIED, unassigned_only=True`): filter, then
`ORDER BY (likes + shares * 2) DESC`. -/
def get_videos_by_category (db : DB) (category : String) : List Video :=
  (db.videos.filter fun v =>
      v.category == category && v.status == VideoStatus.classified &&
      v.compilation_id == "").sorted_by
    fun a b => decide (b.engagement_score ≤ a.engagement_score)

/-- `Database.get_videos_by_subcategory` as the grouper calls it
(`status=CLASSIFIED, unassigned_only=True`): filter, then
`ORDER BY compilation_score DESC, (likes + shares * 2) DESC`. -/
def get_videos_by_subcategory (db : DB) (category subcategory : String) : List Video :=
  (db.videos.filter fun v =>
      v.category == category && v.subcategory == subcategory &&
      v.status == VideoStatus.classified && v.compilation_id == "").sorted_by
    fun a b =>
      decide (b.compilation_score < a.compilation_score ∨
        (b.compilation_score = a.compilation_score ∧
          b.engagement_score ≤ a.engagement_score))

/-- `Database.get_available_subcategories`: subcategories of CLASSIFIED,
unassigned videos of the category with a nonempty subcategory label and
at least `min_videos` rows (`GROUP BY subcategory HAVING count >= ?`). -/
def get_available_subcategories (db : DB) (category : String) (min_videos : Nat) :
    List String :=
  let eligible := db.videos.filter fun v =>
    v.category == category && v.status == VideoStatus.classified &&
    v.subcategory != "" && v.compilation_id == ""
  ((eligible.map fun v => v.subcategory).dedup).filter fun s =>
    min_videos ≤ (eligible.filter fun v => v.subcategory == s).length

/-- `Database.get_source_compilations` as the grouper calls it
(`status=DOWNLOADED`): `WHERE is_source_compilation = 1 AND status = ?
ORDER BY compilation_score DESC, duration DESC`. -/
def get_source_compilations (db : DB) : List Video :=
  (db.videos.filter fun v =>
      v.is_source_compilation && v.status == VideoStatus.downloaded).sorted_by
    fun a b =>
      decide (b.compilation_score < a.compilation_score ∨
        (b.compilation_score = a.compilation_score ∧ b.duration ≤ a.duration))

/-- `Database.get_account`: `SELECT * FROM accounts WHERE id = ?`. -/
def get_account (db : DB) (account_id : String) : Option Account :=
  db.accounts.find? fun a => a.id == account_id

/-- `Database.get_routing_rules_for_category`: rules of the category
whose account is active (the SQL joins `accounts` and filters
`is_active = 1`), `ORDER BY priority DESC`. -/
def get_routing_rules_for_category (db : DB) (category : String) : List RoutingRule :=
  (db.routing_rules.filter fun r =>
      r.category == category &&
      ((get_account db r.account_id).elim false fun a => a.is_active)).sorted_by
    fun a b => decide (b.priority ≤ a.priority)

/-- `Database.insert_upload`: fails on a duplicate primary key. -/
def insert_upload (db : DB) (u : Upload) : Option DB :=
  if db.uploads.any (fun u0 => u0.id == u.id) then none
  else some { db with uploads := db.uploads ++ [u] }

/-- `Database.update_upload`: `UPDATE uploads SET ... WHERE id = ?`. -/
def update_upload (db : DB) (u : Upload) : DB :=
  { db with uploads := db.uploads.map fun w => if w.id = u.id then u else w }

/-- `Database.upload_exists_for_compilation_account`: any-status
existence check (`SELECT 1 FROM uploads WHERE compilation_id = ? AND
account_id = ? LIMIT 1` — note: no status filter). -/
def upload_exists_for_compilation_account (db : DB) (compilation_id account_id : String) :
    Bool :=
  db.uploads.any fun u =>
    u.compilation_id == compilation_id && u.account_id == account_id

/-- `Database.get_uploads_by_status`: `WHERE status = ? ORDER BY created_at`. -/
def get_uploads_by_status (db : DB) (s : UploadStatus) : List Upload :=
  (db.uploads.filter fun u => u.status == s).sorted_by
    fun a b => decide (a.created_at ≤ b.created_at)

/-- `Database.get_pending_uploads`: `WHERE status = 'pending' ORDER BY
COALESCE(scheduled_at, created_at)` with an optional `LIMIT`. -/
def db_get_pending_uploads (db : DB) (limit : Option Nat) : List Upload :=
  let sorted := (db.uploads.filter fun u => u.status == UploadStatus.pending).sorted_by
    fun a b => decide (a.scheduled_at.getD a.created_at ≤ b.scheduled_at.getD b.created_at)
  match limit with
  | none => sorted
  | some n => sorted.take n

/-! ## Grouper service (`services/grouper.py`) -/

/-- Configuration of `GrouperService.__init__`: the settings-derived
clip-count bounds and quality thresholds, the optional auto-approve
threshold (`None` disables auto-approval), and the
`categories_config.get_subcategory(...)["name"]` lookup, passed in as a
function since it is loaded from a YAML file at runtime. -/
structure GrouperConfig where
  min_clips : Nat
  max_clips : Nat
  min_compilation_score : Rat
  min_visual_independence : Rat
  auto_approve_threshold : Option Rat
  subcategory_name : String → String → String

/-- `GrouperService._calculate_confidence_score`: average of the
strictly positive member confidences, 0 if there are none. -/
def calculate_confidence_score (videos : List Video) : Rat :=
  if videos.isEmpty then 0
  else
    let confidences := (videos.map fun v => v.category_confidence).filter fun c => 0 < c
    if confidences.isEmpty then 0 else confidences.sum / (confidences.length : Rat)

/-- `GrouperService._calculate_compilation_quality`: average of the
strictly positive member compilation scores, 0 if there are none. -/
def calculate_compilation_quality (videos : List Video) : Rat :=
  if videos.isEmpty then 0
  else
    let scores := (videos.map fun v => v.compilation_score).filter fun c => 0 < c
    if scores.isEmpty then 0 else scores.sum / (scores.length : Rat)

/-- `GrouperService._calculate_visual_independence`: average of the
strictly positive member visual-independence scores, 0 if there are none. -/
def calculate_visual_independence (videos : List Video) : Rat :=
  if videos.isEmpty then 0
  else
    let scores := (videos.map fun v => v.visual_independence).filter fun c => 0 < c
    if scores.isEmpty then 0 else scores.sum / (scores.length : Rat)

/-- `GrouperService._should_auto_approve`: false when the threshold is
disabled, otherwise all three aggregate scores must reach it. -/
def should_auto_approve (threshold : Option Rat)
    (confidence_score compilation_quality visual_independence : Rat) : Bool :=
  match threshold with
  | none => false
  | some t =>
    decide (t ≤ confidence_score ∧ t ≤ compilation_quality ∧ t ≤ visual_independence)

/-- `GrouperService._get_next_part_number`: counts compilations of the
category among the UPLOADED, APPROVED, REVIEW and PENDING status lists
(note: RENDERING and REJECTED compilations are not fetched), plus 1. -/
def get_next_part_number (db : DB) (category : String) : Nat :=
  let compilations :=
    get_compilations_by_status db .uploaded ++ get_compilations_by_status db .approved ++
    get_compilations_by_status db .review ++ get_compilations_by_status db .pending
  (compilations.filter fun c => c.category == category).length + 1

/-- `GrouperService._filter_quality_videos`: keep legacy videos (both
scores exactly 0) and videos meeting both quality thresholds. -/
def filter_quality_videos (cfg : GrouperConfig) (videos : List Video) : List Video :=
  videos.filter fun v =>
    (v.compilation_score == 0 && v.visual_independence == 0) ||
    (decide (cfg.min_compilation_score ≤ v.compilation_score) &&
     decide (cfg.min_visual_independence ≤ v.visual_independence))

/-- `GrouperService._select_best_videos`: quality-filter, then a stable
sort by likes descending (Python `sorted(key=lambda v: v.likes,
reverse=True)`), then take the first `num_clips`. -/
def select_best_videos (cfg : GrouperConfig) (videos : List Video) (num_clips : Nat) :
    List Video :=
  let quality_videos := filter_quality_videos cfg videos
  let sorted_videos := quality_videos.sorted_by fun a b => decide (b.likes ≤ a.likes)
  sorted_videos.take num_clips

/-- The video-assignment loop shared by the compilation creators:
`for order, video in enumerate(selected): video.compilation_id = cid;
video.clip_order = order; video.status = GROUPED; db.update_video(video)`. -/
def assign_selected (db : DB) (compilation_id : String) (selected : List Video) : DB :=
  selected.enum.foldl
    (fun d p =>
      update_video d
        { p.2 with compilation_id := compilation_id, clip_order := p.1, status := .grouped })
    db

/-- Clip-count determination shared by the compilation creators. -/
def resolve_num_clips (cfg : GrouperConfig) (quality_count : Nat) (num_clips : Option Nat) :
    Nat :=
  match num_clips with
  | none => min quality_count cfg.max_clips
  | some n => max (min (min n quality_count) cfg.max_clips) cfg.min_clips

/-- `GrouperService.create_compilation_by_subcategory`.  The freshly
generated UUID is passed in as `fresh_id`.  Returns the created
compilation and the updated store, or `none` (not enough quality videos,
or the insert failed). -/
def create_compilation_by_subcategory (cfg : GrouperConfig) (db : DB) (fresh_id : String)
    (category subcategory : String) (num_clips : Option Nat) :
    Option (Compilation × DB) :=
  let videos := get_videos_by_subcategory db category subcategory
  let quality_videos := filter_quality_videos cfg videos
  if quality_videos.length < cfg.min_clips then none
  else
    let n := resolve_num_clips cfg quality_videos.length num_clips
    let selected := select_best_videos cfg quality_videos n
    let part_number := get_next_part_number db category
    let subcat_name := cfg.subcategory_name category subcategory
    let title := subcat_name ++ " Compilation #" ++ toString part_number
    let confidence_score := calculate_confidence_score selected
    let compilation_quality := calculate_compilation_quality selected
    let visual_independence := calculate_visual_independence selected
    let approve :=
      should_auto_approve cfg.auto_approve_threshold confidence_score
        compilation_quality visual_independence
    let comp : Compilation :=
      { id := fresh_id, category := category, title := title,
        description := "Subcategory: " ++ subcategory,
        video_ids := selected.map fun v => v.id,
        status := .pending, confidence_score := confidence_score,
        auto_approved := approve }
    match insert_compilation db comp with
    | none => none
    | some db1 => some (comp, assign_selected db1 fresh_id selected)

/-- The subcategory-scan of `GrouperService.create_compilation`: pick the
subcategory with the most quality videos, provided it has at least
`min_clips` of them (`len >= min_clips and len > best_count`). -/
def pick_best_subcategory (cfg : GrouperConfig) (db : DB) (category : String)
    (subcategories : List String) : Option String :=
  (subcategories.foldl
    (fun best s =>
      let q := (filter_quality_videos cfg (get_videos_by_subcategory db category s)).length
      if cfg.min_clips ≤ q ∧ best.2 < q then (some s, q) else best)
    ((none : Option String), 0)).1

/-- The mixed-category fallback branch of `GrouperService.create_compilation`.
The mixed title comes from `categories_config.get_compilation_title`
(random template choice), passed in as `mixed_title`. -/
def create_compilation_mixed (cfg : GrouperConfig) (db : DB) (fresh_id : String)
    (category : String) (num_clips : Option Nat)
    (mixed_title : String → Nat → Nat → String) :
    Option (Compilation × DB) :=
  let videos := get_videos_by_category db category
  let quality_videos := filter_quality_videos cfg videos
  if quality_videos.length < cfg.min_clips then none
  else
    let n := resolve_num_clips cfg quality_videos.length num_clips
    let selected := select_best_videos cfg quality_videos n
    let part_number := get_next_part_number db category
    let title := mixed_title category n part_number
    let confidence_score := calculate_confidence_score selected
    let compilation_quality := calculate_compilation_quality selected
    let visual_independence := calculate_visual_independence selected
    let approve :=
      should_auto_approve cfg.auto_approve_threshold confidence_score
        compilation_quality visual_independence
    let comp : Compilation :=
      { id := fresh_id, category := category, title := title,
        description := "Mixed",
        video_ids := selected.map fun v => v.id,
        status := .pending, confidence_score := confidence_score,
        auto_approved := approve }
    match insert_compilation db comp with
    | none => none
    | some db1 => some (comp, assign_selected db1 fresh_id selected)

/-- `GrouperService.create_compilation`: try the best subcategory first,
fall back to a mixed compilation over the whole category. -/
def create_compilation (cfg : GrouperConfig) (db : DB) (fresh_id : String)
    (category : String) (num_clips : Option Nat)
    (mixed_title : String → Nat → Nat → String) :
    Option (Compilation × DB) :=
  let subcategories := get_available_subcategories db category cfg.min_clips
  match pick_best_subcategory cfg db category subcategories with
  | some best => create_compilation_by_subcategory cfg db fresh_id category best num_clips
  | none => create_compilation_mixed cfg db fresh_id category num_clips mixed_title

/-- `GrouperService.ungroup_compilation`: only PENDING or REJECTED
compilations may be ungrouped; on success delegates the member reset and
the record deletion to `Database.delete_compilation`. -/
def ungroup_compilation (db : DB) (compilation_id : String) : Bool × DB :=
  match get_compilation db compilation_id with
  | none => (false, db)
  | some comp =>
    if comp.status = CompilationStatus.pending ∨ comp.status = CompilationStatus.rejected
    then (true, delete_compilation db compilation_id)
    else (false, db)

/-! ## Mega-compilation grouping (`services/grouper.py`, source-compilation part)

`GrouperService._calculate_source_score` reads six `MEGA_RANK_*`
attributes from the `settings` object.  `config/settings.py` defines no
such attributes, so the attribute reads are fallible: they are modelled
as `Option Rat` fields together with an `Except`-raising accessor that
mirrors Python's `AttributeError`. -/

/-- The six `settings.MEGA_RANK_*` attributes read by
`_calculate_source_score`; `none` means the attribute does not exist on
the settings object. -/
structure MegaSettings where
  target_duration : Option Rat := none
  recency_days : Option Rat := none
  engagement_weight : Option Rat := none
  quality_weight : Option Rat := none
  duration_penalty : Option Rat := none
  recency_bonus : Option Rat := none

/-- The settings object actually constructed by `config/settings.py`:
the `Settings` class defines none of the `MEGA_RANK_*` attributes, so
every field is `none`. -/
def runtime_mega_settings : MegaSettings := {}

/-- Python attribute access `settings.<name>`: raises `AttributeError`
when the attribute is absent. -/
def settings_attr (v : Option Rat) (name : String) : Except String Rat :=
  match v with
  | some x => Except.ok x
  | none => Except.error ("AttributeError: " ++ name)

/-- `GrouperService._calculate_source_score`: weighted combination of
normalized engagement, a likes-per-play quality fraction, a
duration-distance penalty and a linearly decaying recency bonus.
`now` is today as days since the epoch, so `now - v.created_at` is the
`.days` of the Python timedelta. -/
def calculate_source_score (s : MegaSettings) (now : Int) (v : Video) :
    Except String Rat := do
  let engagement_norm : Rat := min ((v.engagement_score : Rat) / 50000) 1
  let likes_per_play : Rat := if 0 < v.plays then (v.likes : Rat) / (v.plays : Rat) else 0
  let target ← settings_attr s.target_duration "MEGA_RANK_TARGET_DURATION"
  let duration_pen : Rat := if v.duration = 0 then 1/2 else |v.duration - target| / target
  let days_old : Int := now - v.created_at
  let recency_window ← settings_attr s.recency_days "MEGA_RANK_RECENCY_DAYS"
  let recency : Rat := max 0 (1 - (days_old : Rat) / recency_window)
  let ew ← settings_attr s.engagement_weight "MEGA_RANK_ENGAGEMENT_WEIGHT"
  let qw ← settings_attr s.quality_weight "MEGA_RANK_QUALITY_WEIGHT"
  let dp ← settings_attr s.duration_penalty "MEGA_RANK_DURATION_PENALTY"
  let rb ← settings_attr s.recency_bonus "MEGA_RANK_RECENCY_BONUS"
  return engagement_norm * ew + likes_per_play * qw - duration_pen * dp + recency * rb

/-- The per-candidate key evaluation Python's `sorted(key=...)` performs
before sorting: the first raising candidate propagates its exception. -/
def score_sources (s : MegaSettings) (now : Int) (sources : List Video) :
    Except String (List (Video × Rat)) :=
  sources.mapM fun v => do
    let sc ← calculate_source_score s now v
    pure (v, sc)

/-- The body of `create_mega_compilation` from the point where the
candidate pool has been computed. -/
def create_mega_from_sources (s : MegaSettings) (db : DB) (now : Int) (fresh_id : String)
    (compilation_type : Option String) (num_sources : Option Nat)
    (source_comps : List Video) : Except String (Option (Compilation × DB)) :=
  if source_comps.length < 2 then Except.ok none
  else
    let n := match num_sources with
      | none => min source_comps.length 5
      | some k => min k source_comps.length
    match score_sources s now source_comps with
    | Except.error e => Except.error e
    | Except.ok scored =>
      let sorted := scored.sorted_by fun a b => decide (b.2 ≤ a.2)
      let selected := (sorted.map fun p => p.1).take n
      let type_name := (compilation_type.getD "mixed").capitalize
      let part_number := get_next_part_number db (compilation_type.getD "mega")
      let title := "Ultimate " ++ type_name ++ " Compilation #" ++ toString part_number
      let comp : Compilation :=
        { id := fresh_id, category := compilation_type.getD "mega", title := title,
          video_ids := selected.map fun v => v.id,
          status := .pending, confidence_score := 9/10, auto_approved := true }
      match insert_compilation db comp with
      | none => Except.ok none
      | some db1 => Except.ok (some (comp, assign_selected db1 fresh_id selected))

/-- `GrouperService.create_mega_compilation`.  `Except.error` models an
uncaught Python exception; `Except.ok none` models a `None` return.
The `< 2` early return happens before any `MEGA_RANK_*` attribute is
read, exactly as in the source. -/
def create_mega_compilation (s : MegaSettings) (db : DB) (now : Int) (fresh_id : String)
    (compilation_type : Option String) (num_sources : Option Nat) :
    Except String (Option (Compilation × DB)) :=
  create_mega_from_sources s db now fresh_id compilation_type num_sources
    (match compilation_type with
     | none => get_source_compilations db
     | some t => (get_source_compilations db).filter fun v =>
         (if v.compilation_type = "" then "mixed" else v.compilation_type) == t)

/-! ## Classifier service (`services/classifier.py`) -/

/-- Python `str.lower`, written so it reduces in the kernel. -/
def str_lower (s : String) : String :=
  ⟨s.data.map Char.toLower⟩

/-- Python `str.strip`, written so it reduces in the kernel. -/
def str_trim (s : String) : String :=
  ⟨(((s.data.dropWhile Char.isWhitespace).reverse).dropWhile Char.isWhitespace).reverse⟩

/-- Substring containment on character lists (Python `needle in haystack`). -/
def char_list_contains : List Char → List Char → Bool
  | needle, [] => needle.isEmpty
  | needle, c :: rest => needle.isPrefixOf (c :: rest) || char_list_contains needle rest

/-- Python substring test `needle in haystack`. -/
def str_contains_sub (haystack needle : String) : Bool :=
  char_list_contains needle.data haystack.data

/-- Classifier configuration: the YAML-loaded pattern lists (the file is
runtime data, not source), and the `re.search` regex engine treated as
an opaque deterministic function — `regex_search_nocase` for the
IGNORECASE trend search, `regex_search` for the spam search. -/
structure ClassifierConfig where
  regex_search_nocase : String → String → Bool
  regex_search : String → String → Bool
  trend_patterns : List String
  narrative_keywords : List String
  narrative_hashtags : List String
  hard_reject_keywords : List String

/-- `ClassifierService._check_trend_patterns`: regex trend patterns,
then narrative-keyword substrings, over the lowered text. -/
def check_trend_patterns (cls : ClassifierConfig) (text : String) : Bool × String :=
  let text_lower := str_lower text
  match cls.trend_patterns.find? fun p => cls.regex_search_nocase p text_lower with
  | some p => (true, "Trend pattern: " ++ p)
  | none =>
    match cls.narrative_keywords.find? fun k => str_contains_sub text_lower (str_lower k) with
    | some k => (true, "Narrative keyword: " ++ k)
    | none => (false, "")

/-- `ClassifierService._check_narrative_hashtags`: exact membership of a
configured narrative hashtag in the lowered hashtag list. -/
def check_narrative_hashtags (cls : ClassifierConfig) (hashtags : List String) :
    Bool × String :=
  let hashtags_lower := hashtags.map str_lower
  match cls.narrative_hashtags.find? fun t => hashtags_lower.contains (str_lower t) with
  | some t => (true, "Narrative hashtag: " ++ t)
  | none => (false, "")

/-- The hardcoded spam regex patterns of `ClassifierService._pre_filter`. -/
def spam_patterns : List String :=
  ["follow\\s*for\\s*more", "link\\s*in\\s*bio", "shop\\s*now", "use\\s*code",
   "dm\\s*for", "collab\\s*\\?", "rate\\s*me", "hot\\s*or\\s*not",
   "duet\\s*this", "stitch\\s*with"]

/-- The hardcoded low-effort exact phrases of `ClassifierService._pre_filter`. -/
def low_effort_exact : List String :=
  ["part 1", "part 2", "part 3", "wait for it", "watch till end",
   "pov", "storytime", "story time"]

/-- `ClassifierService._pre_filter` as a function of the only item data
it reads: the description and the hashtag list.  Six short-circuiting
stages: trend patterns (on the description alone), narrative hashtags,
hard-reject keywords, spam regexes, hashtag-count ceiling, low-effort
exact phrases. -/
def pre_filter_text (cls : ClassifierConfig) (description : String)
    (hashtags : List String) : Bool × String :=
  let text := description ++ " " ++ String.intercalate " " hashtags
  let text_lower := str_lower text
  match check_trend_patterns cls description with
  | (true, reason) => (true, reason)
  | (false, _) =>
    match check_narrative_hashtags cls hashtags with
    | (true, reason) => (true, reason)
    | (false, _) =>
      match cls.hard_reject_keywords.find? fun k => str_contains_sub text_lower (str_lower k) with
      | some k => (true, "Hard reject keyword: " ++ k)
      | none =>
        match spam_patterns.find? fun p => cls.regex_search p text_lower with
        | some p => (true, "Spam pattern: " ++ p)
        | none =>
          if 15 < hashtags.length then (true, "Too many hashtags (likely spam)")
          else
            match low_effort_exact.find? fun ph => str_contains_sub text_lower ph with
            | some ph => (true, "Low-effort trend phrase: " ++ ph)
            | none => (false, "")

/-- `ClassifierService._pre_filter` applied to a video. -/
def pre_filter (cls : ClassifierConfig) (v : Video) : Bool × String :=
  pre_filter_text cls v.description v.hashtags

/-- The structured classification result built by
`ClassifierService._parse_response`. -/
structure ScoreResult where
  category : String
  subcategory : String
  confidence : Rat
  compilation_score : Rat
  visual_independence : Rat
  reasoning : String
  rejection_reason : String
deriving DecidableEq, Repr

/-- The raw fields extracted from a successfully JSON-decoded oracle
response (`data.get(...)` with defaults already applied). -/
structure RawResult where
  category : String := ""
  subcategory : String := ""
  confidence : Rat := 0
  compilation_score : Rat := 0
  visual_independence : Rat := 0
  reasoning : String := ""
  rejection_reason : String := ""
deriving DecidableEq, Repr

/-- `ClassifierService.ACCEPTED_CATEGORIES`. -/
def accepted_categories : List String := ["fails", "comedy"]

/-- `ClassifierService.SUBCATEGORIES`. -/
def subcategories_for : String → List String
  | "fails" => ["physical", "skill", "social"]
  | "comedy" => ["physical", "reaction", "animal"]
  | _ => []

/-- Clamping of score fields to the unit interval (`max(0, min(1, x))`). -/
def clamp01 (x : Rat) : Rat := max 0 (min 1 x)

/-- `ClassifierService._parse_response`: `none` is a JSON decode failure
and yields the conservative reject result; otherwise the fields are
lowered/trimmed, clamped, and the category/subcategory validated. -/
def parse_response : Option RawResult → ScoreResult
  | none =>
    { category := "reject", subcategory := "", confidence := 1/2,
      compilation_score := 0, visual_independence := 0,
      reasoning := "Parse error", rejection_reason := "Could not parse LLM response" }
  | some d =>
    let category0 := str_trim (str_lower d.category)
    let subcategory0 := str_trim (str_lower d.subcategory)
    let confidence := clamp01 d.confidence
    let compilation_score := clamp01 d.compilation_score
    let visual_independence := clamp01 d.visual_independence
    let ok_category := accepted_categories.contains category0 || category0 == "reject"
    let category1 := if ok_category then category0 else "reject"
    let rejection1 :=
      if ok_category then d.rejection_reason else "Invalid category: " ++ d.category
    let subcategory1 :=
      if accepted_categories.contains category1 then
        let valid := subcategories_for category1
        if valid.contains subcategory0 then subcategory0 else valid.headD ""
      else subcategory0
    { category := category1,
      subcategory := if category1 = "reject" then "" else subcategory1,
      confidence := confidence, compilation_score := compilation_score,
      visual_independence := visual_independence,
      reasoning := d.reasoning, rejection_reason := rejection1 }

/-- The reject result `ClassifierService.classify` returns when the
pre-filter fires (no oracle call is made). -/
def pre_filter_reject_result (reason : String) : ScoreResult :=
  { category := "reject", subcategory := "", confidence := 95/100,
    compilation_score := 0, visual_independence := 0,
    reasoning := "Pre-filter rejection: " ++ reason, rejection_reason := reason }

/-- One interaction with the scoring oracle: either the call returned
text (`raw = none` meaning the text could not be parsed as JSON), or the
call raised an exception. -/
inductive OracleOutcome
  | ok (raw : Option RawResult)
  | exn (e : String)

/-- `ClassifierService.classify`: pre-filter first (short-circuiting the
oracle entirely), then the oracle call, whose exceptions propagate and
whose response goes through `_parse_response`. -/
def classify (cls : ClassifierConfig) (oracle : OracleOutcome) (v : Video) :
    Except String ScoreResult :=
  match pre_filter cls v with
  | (true, reject_reason) => Except.ok (pre_filter_reject_result reject_reason)
  | (false, _) =>
    match oracle with
    | .exn e => Except.error e
    | .ok raw => Except.ok (parse_response raw)

/-- The acceptance thresholds of `ClassifierService.classify_and_update`. -/
structure Thresholds where
  min_confidence : Rat
  min_compilation_score : Rat
  min_visual_independence : Rat

/-- The reasoning string recorded on the video
(`" | ".join(filter(None, reasoning_parts))`). -/
def build_reasoning (res : ScoreResult) : String :=
  let parts := [res.reasoning] ++
    (if res.rejection_reason = "" then [] else ["Rejection: " ++ res.rejection_reason])
  String.intercalate " | " (parts.filter fun s => s != "")

/-- The classification-field updates applied to the video before the
status decision in `classify_and_update`. -/
def apply_result (v : Video) (res : ScoreResult) : Video :=
  { v with
    category := res.category, subcategory := res.subcategory,
    category_confidence := res.confidence,
    compilation_score := res.compilation_score,
    visual_independence := res.visual_independence,
    classification_reasoning := build_reasoning res }

/-- The status decision of `classify_and_update`: the four ordered
checks (reject category, confidence, compilation score, visual
independence), first failing check wins with SKIPPED/false, full pass
gives CLASSIFIED/true. -/
def gate_decision (th : Thresholds) (res : ScoreResult) : Bool × VideoStatus :=
  if res.category = "reject" then (false, .skipped)
  else if res.confidence < th.min_confidence then (false, .skipped)
  else if res.compilation_score < th.min_compilation_score then (false, .skipped)
  else if res.visual_independence < th.min_visual_independence then (false, .skipped)
  else (true, .classified)

/-- `ClassifierService.classify_and_update`: ordered threshold checks
with first-failing-check-wins SKIPPED outcomes, CLASSIFIED on full pass
(in every non-exception branch the classification fields are applied,
`error` is cleared and the row persisted), FAILED with the error text
recorded on an oracle exception. -/
def classify_and_update (cls : ClassifierConfig) (th : Thresholds)
    (oracle : OracleOutcome) (db : DB) (v : Video) : Bool × DB :=
  match classify cls oracle v with
  | .error e => (false, update_video db { v with error := e, status := .failed })
  | .ok res =>
    ((gate_decision th res).1,
      update_video db
        { apply_result v res with status := (gate_decision th res).2, error := "" })

/-! ## Account manager (`services/account_manager.py`) -/

/-- `AccountManager.can_upload`: active, credentialed, under the daily cap. -/
def can_upload (db : DB) (account_id : String) : Bool :=
  match get_account db account_id with
  | none => false
  | some a =>
    a.is_active && a.credentials_encrypted != "" &&
    decide (a.uploads_today < a.daily_upload_limit)

/-- `Database.get_accounts_by_strategy`: `WHERE content_strategy = ? AND
platform = ? AND is_active = 1 ORDER BY name`. -/
def get_accounts_by_strategy (db : DB) (s : ContentStrategy) (p : Platform) :
    List Account :=
  (db.accounts.filter fun a =>
      a.content_strategy == s && a.platform == p && a.is_active).sorted_by
    fun a b => decide (a.name ≤ b.name)

/-- `AccountManager.get_available_accounts`: strategy-matching accounts
that are active, credentialed and under their daily cap. -/
def get_available_accounts (db : DB) (p : Platform) (s : ContentStrategy) :
    List Account :=
  (get_accounts_by_strategy db s p).filter fun a =>
    a.is_active && a.credentials_encrypted != "" &&
    decide (a.uploads_today < a.daily_upload_limit)

/-! ## Upload router (`services/upload_router.py`) -/

/-- `MIN_UPLOAD_INTERVAL_MINUTES` from `upload_router.py`. -/
def MIN_UPLOAD_INTERVAL_MINUTES : Int := 30

/-- The category-to-strategy fallback mapping used by
`UploadRouter._get_fallback_accounts`. -/
def strategies_for_category (category : String) : List ContentStrategy :=
  if category = "fails" then [.fails, .mixed]
  else if category = "comedy" then [.comedy, .mixed]
  else [.mixed]

/-- The per-rule body of the `_get_matching_accounts` loop: `none` when
one of the `continue` guards fires, otherwise the account and its
priority score `rule.priority * 10 + remaining_capacity`. -/
def rule_candidate (db : DB) (comp : Compilation) (p : Platform) (rule : RoutingRule) :
    Option (Account × Int) :=
  match get_account db rule.account_id with
  | none => none
  | some a =>
    if a.platform ≠ p then none
    else if ¬ a.is_active ∨ a.credentials_encrypted = "" then none
    else if comp.confidence_score < rule.min_confidence then none
    else if a.daily_upload_limit ≤ a.uploads_today then none
    else some (a, rule.priority * 10 + (a.daily_upload_limit - a.uploads_today))

/-- `UploadRouter._get_matching_accounts`: walk the category's routing
rules collecting the surviving (account, score) pairs in order, then a
stable sort by score descending. -/
def get_matching_accounts (db : DB) (comp : Compilation) (p : Platform) :
    List (Account × Int) :=
  ((get_routing_rules_for_category db comp.category).filterMap
    (rule_candidate db comp p)).sorted_by fun x y => decide (y.2 ≤ x.2)

/-- `UploadRouter._get_fallback_accounts`: union of the available
accounts over the category's strategies (first-seen order, deduplicated
by structural equality), then a stable sort by `uploads_today` ascending. -/
def get_fallback_accounts (db : DB) (comp : Compilation) (p : Platform) : List Account :=
  let available := (strategies_for_category comp.category).foldl
    (fun acc s =>
      (get_available_accounts db p s).foldl
        (fun acc2 a => if acc2.contains a then acc2 else acc2 ++ [a]) acc)
    []
  available.sorted_by fun a b => decide (a.uploads_today ≤ b.uploads_today)

/-- One platform iteration of the `route_compilation` loop: pick the top
rule-matched account or the first fallback account, skip when an upload
for the (compilation, account) pair already exists in the store — of any
status — otherwise insert a fresh PENDING upload. -/
def route_step (comp : Compilation) (fresh : Nat → String)
    (st : DB × List Upload × Nat) (p : Platform) : DB × List Upload × Nat :=
  match (match get_matching_accounts st.1 comp p with
         | (a, _) :: _ => some a
         | [] => (get_fallback_accounts st.1 comp p).head?) with
  | none => st
  | some a =>
    if upload_exists_for_compilation_account st.1 comp.id a.id then st
    else
      match insert_upload st.1
        { id := fresh st.2.2, compilation_id := comp.id, account_id := a.id,
          platform := p, status := .pending } with
      | some d1 =>
        (d1, st.2.1 ++
          [{ id := fresh st.2.2, compilation_id := comp.id, account_id := a.id,
             platform := p, status := .pending }], st.2.2 + 1)
      | none => (st.1, st.2.1, st.2.2 + 1)

/-- `UploadRouter.route_compilation`: only APPROVED compilations are
routed; per platform `route_step` runs against the store state threaded
through the loop.  `fresh k` is the k-th UUID generated during the
call. -/
def route_compilation (db : DB) (comp : Compilation) (platforms : List Platform)
    (fresh : Nat → String) : DB × List Upload :=
  if comp.status ≠ CompilationStatus.approved then (db, [])
  else
    ((platforms.foldl (route_step comp fresh) (db, [], 0)).1,
     (platforms.foldl (route_step comp fresh) (db, [], 0)).2.1)

/-- `UploadRouter.get_pending_uploads`: the store's pending list
(limited), filtered to the platform. -/
def router_get_pending_uploads (db : DB) (p : Platform) (limit : Option Nat) :
    List Upload :=
  (db_get_pending_uploads db limit).filter fun u => u.platform == p

/-- The per-upload skip conditions of `UploadRouter.get_next_upload`:
the account exists and `can_upload`, the cool-down interval has elapsed,
and the compilation exists. -/
def upload_eligible (db : DB) (now : Int) (u : Upload) : Bool :=
  match get_account db u.account_id with
  | none => false
  | some a =>
    can_upload db u.account_id &&
    !(match a.last_upload_at with
      | some t => decide (now - t < MIN_UPLOAD_INTERVAL_MINUTES)
      | none => false) &&
    (get_compilation db u.compilation_id).isSome

/-- The scan loop of `UploadRouter.get_next_upload`. -/
def get_next_upload_go (db : DB) (now : Int) :
    List Upload → Option (Upload × Account × Compilation)
  | [] => none
  | u :: rest =>
    match get_account db u.account_id with
    | none => get_next_upload_go db now rest
    | some a =>
      if ¬ can_upload db u.account_id then get_next_upload_go db now rest
      else if (match a.last_upload_at with
               | some t => decide (now - t < MIN_UPLOAD_INTERVAL_MINUTES)
               | none => false) then get_next_upload_go db now rest
      else
        match get_compilation db u.compilation_id with
        | none => get_next_upload_go db now rest
        | some c => some (u, a, c)

/-- `UploadRouter.get_next_upload`: scan the first 10 pending uploads
(the `limit=10` is applied before the platform filter), returning the
first one whose account and compilation pass all checks.  `now` is the
current UTC time in minutes. -/
def get_next_upload (db : DB) (p : Platform) (now : Int) :
    Option (Upload × Account × Compilation) :=
  get_next_upload_go db now (router_get_pending_uploads db p (some 10))

/-- `UploadRouter.retry_failed_uploads`: re-queue FAILED uploads with
`retry_count < max_retries` back to PENDING; returns the updated store
and the number re-queued. -/
def retry_step (max_retries : Nat) (st : DB × Nat) (u : Upload) : DB × Nat :=
  if u.retry_count < max_retries then
    (update_upload st.1 { u with status := .pending }, st.2 + 1)
  else st

/-- `UploadRouter.retry_failed_uploads` (continued): folds `retry_step`
over the FAILED uploads fetched up front. -/
def retry_failed_uploads (db : DB) (max_retries : Nat) : DB × Nat :=
  (get_uploads_by_status db .failed).foldl (retry_step max_retries) (db, 0)

/-! ## General helper lemmas -/

theorem mem_sorted_by {l : List α} {le : α → α → Bool} {a : α} :
    a ∈ l.sorted_by le ↔ a ∈ l :=
  mem_stable_sort le

theorem sorted_by_length (l : List α) (le : α → α → Bool) :
    (l.sorted_by le).length = l.length :=
  stable_sort_length le l

theorem sorted_by_perm (l : List α) (le : α → α → Bool) :
    List.Perm (l.sorted_by le) l :=
  stable_sort_perm le l

theorem filter_quality_videos_subset (cfg : GrouperConfig) (videos : List Video) :
    ∀ v ∈ filter_quality_videos cfg videos, v ∈ videos := by
  intro v hv
  simp only [filter_quality_videos] at hv
  exact List.mem_of_mem_filter hv

theorem select_best_videos_subset (cfg : GrouperConfig) (videos : List Video) (n : Nat) :
    ∀ v ∈ select_best_videos cfg videos n, v ∈ videos := by
  intro v hv
  simp only [select_best_videos] at hv
  have h1 := List.take_subset _ _ hv
  have h2 := mem_sorted_by.mp h1
  exact filter_quality_videos_subset cfg videos v h2

theorem get_videos_by_subcategory_subset (db : DB) (category subcategory : String) :
    ∀ v ∈ get_videos_by_subcategory db category subcategory, v ∈ db.videos := by
  intro v hv
  simp only [get_videos_by_subcategory] at hv
  exact List.mem_of_mem_filter (mem_sorted_by.mp hv)

theorem get_videos_by_category_subset (db : DB) (category : String) :
    ∀ v ∈ get_videos_by_category db category, v ∈ db.videos := by
  intro v hv
  simp only [get_videos_by_category] at hv
  exact List.mem_of_mem_filter (mem_sorted_by.mp hv)

/-- Splitting a count over a disjunction of mutually exclusive predicates. -/
theorem countP_disjoint_or (p q : α → Bool) (l : List α)
    (h : ∀ a, ¬(p a = true ∧ q a = true)) :
    l.countP (fun a => p a || q a) = l.countP p + l.countP q := by
  induction l with
  | nil => simp
  | cons a l ih =>
    by_cases hp : p a = true
    · have hq : ¬ q a = true := fun hq => h a ⟨hp, hq⟩
      simp [List.countP_cons, hp, hq, ih]
      omega
    · by_cases hq : q a = true
      · simp [List.countP_cons, hp, hq, ih]
        omega
      · simp [List.countP_cons, hp, hq, ih]

/-! ## Derived forms of the grouper pipeline used in the statements -/

/-- The quality pool `create_compilation_by_subcategory` draws from. -/
def subcat_quality (cfg : GrouperConfig) (db : DB) (category subcategory : String) :
    List Video :=
  filter_quality_videos cfg (get_videos_by_subcategory db category subcategory)

/-- The clips `create_compilation_by_subcategory` selects. -/
def subcat_selected (cfg : GrouperConfig) (db : DB) (category subcategory : String)
    (num_clips : Option Nat) : List Video :=
  select_best_videos cfg (subcat_quality cfg db category subcategory)
    (resolve_num_clips cfg (subcat_quality cfg db category subcategory).length num_clips)

/-- The compilation record `create_compilation_by_subcategory` builds. -/
def subcat_compilation (cfg : GrouperConfig) (db : DB) (fresh_id : String)
    (category subcategory : String) (num_clips : Option Nat) : Compilation :=
  { id := fresh_id, category := category,
    title := cfg.subcategory_name category subcategory ++ " Compilation #" ++
      toString (get_next_part_number db category),
    description := "Subcategory: " ++ subcategory,
    video_ids := (subcat_selected cfg db category subcategory num_clips).map fun v => v.id,
    status := .pending,
    confidence_score :=
      calculate_confidence_score (subcat_selected cfg db category subcategory num_clips),
    auto_approved :=
      should_auto_approve cfg.auto_approve_threshold
        (calculate_confidence_score (subcat_selected cfg db category subcategory num_clips))
        (calculate_compilation_quality (subcat_selected cfg db category subcategory num_clips))
        (calculate_visual_independence (subcat_selected cfg db category subcategory num_clips)) }

/-- What a successful `create_compilation_by_subcategory` run consists of. -/
theorem create_by_subcat_elim {cfg : GrouperConfig} {db : DB}
    {fresh_id category subcategory : String} {num_clips : Option Nat}
    {comp : Compilation} {db2 : DB}
    (h : create_compilation_by_subcategory cfg db fresh_id category subcategory num_clips =
      some (comp, db2)) :
    cfg.min_clips ≤ (subcat_quality cfg db category subcategory).length ∧
    comp = subcat_compilation cfg db fresh_id category subcategory num_clips ∧
    ∃ db1,
      insert_compilation db (subcat_compilation cfg db fresh_id category subcategory num_clips) =
        some db1 ∧
      db2 = assign_selected db1 fresh_id (subcat_selected cfg db category subcategory num_clips) := by
  simp only [create_compilation_by_subcategory] at h
  split at h
  case isTrue hlt => exact absurd h (by simp)
  case isFalse hlt =>
    split at h
    case h_1 => exact absurd h (by simp)
    case h_2 db1 heq =>
      rw [Option.some.injEq, Prod.mk.injEq] at h
      obtain ⟨hc, hd⟩ := h
      exact ⟨Nat.le_of_not_lt hlt, hc.symm, db1, heq, hd.symm⟩

/-- The quality pool of the mixed-category fallback. -/
def mixed_quality (cfg : GrouperConfig) (db : DB) (category : String) : List Video :=
  filter_quality_videos cfg (get_videos_by_category db category)

/-- The clips the mixed-category fallback selects. -/
def mixed_selected (cfg : GrouperConfig) (db : DB) (category : String)
    (num_clips : Option Nat) : List Video :=
  select_best_videos cfg (mixed_quality cfg db category)
    (resolve_num_clips cfg (mixed_quality cfg db category).length num_clips)

/-- What a successful `create_compilation_mixed` run consists of. -/
theorem create_mixed_elim {cfg : GrouperConfig} {db : DB}
    {fresh_id category : String} {num_clips : Option Nat}
    {mixed_title : String → Nat → Nat → String} {comp : Compilation} {db2 : DB}
    (h : create_compilation_mixed cfg db fresh_id category num_clips mixed_title =
      some (comp, db2)) :
    comp.video_ids = (mixed_selected cfg db category num_clips).map (fun v => v.id) ∧
    comp.confidence_score = calculate_confidence_score (mixed_selected cfg db category num_clips) ∧
    comp.auto_approved =
      should_auto_approve cfg.auto_approve_threshold
        (calculate_confidence_score (mixed_selected cfg db category num_clips))
        (calculate_compilation_quality (mixed_selected cfg db category num_clips))
        (calculate_visual_independence (mixed_selected cfg db category num_clips)) ∧
    ∃ db1 comp1,
      insert_compilation db comp1 = some db1 ∧
      db2 = assign_selected db1 fresh_id (mixed_selected cfg db category num_clips) := by
  simp only [create_compilation_mixed] at h
  split at h
  case isTrue hlt => exact absurd h (by simp)
  case isFalse hlt =>
    split at h
    case h_1 => exact absurd h (by simp)
    case h_2 db1 heq =>
      rw [Option.some.injEq, Prod.mk.injEq] at h
      obtain ⟨hc, hd⟩ := h
      subst hc
      exact ⟨rfl, rfl, rfl, db1, _, heq, hd.symm⟩

/-! ## C8: part numbers -/

theorem countP_status_split (l : List Compilation) (cat : String) :
    l.countP (fun c => c.category == cat && c.status == CompilationStatus.uploaded) +
    l.countP (fun c => c.category == cat && c.status == CompilationStatus.approved) +
    l.countP (fun c => c.category == cat && c.status == CompilationStatus.review) +
    l.countP (fun c => c.category == cat && c.status == CompilationStatus.pending) =
    l.countP (fun c => c.category == cat &&
      (c.status == CompilationStatus.pending || c.status == CompilationStatus.review ||
       c.status == CompilationStatus.approved || c.status == CompilationStatus.uploaded)) := by
  induction l with
  | nil => simp
  | cons c l ih =>
    by_cases hc : c.category == cat
    · rcases hs : c.status <;> simp [List.countP_cons, hs, hc] <;> omega
    · simp [List.countP_cons, hc]
      omega

/-- `_get_next_part_number` counts exactly the category's compilations in
the four fetched statuses (PENDING, REVIEW, APPROVED, UPLOADED). -/
theorem get_next_part_number_eq (db : DB) (category : String) :
    get_next_part_number db category =
      (db.compilations.filter fun c => c.category == category &&
        (c.status == CompilationStatus.pending || c.status == CompilationStatus.review ||
         c.status == CompilationStatus.approved ||
         c.status == CompilationStatus.uploaded)).length + 1 := by
  have conv1 : ∀ (s : CompilationStatus),
      (List.filter (fun c => c.category == category)
        (get_compilations_by_status db s)).length =
      db.compilations.countP (fun c => c.category == category && c.status == s) := by
    intro s
    rw [← List.countP_eq_length_filter]
    unfold get_compilations_by_status
    rw [(sorted_by_perm _ _).countP_eq]
    exact List.countP_filter _ _ _
  simp only [get_next_part_number]
  rw [List.filter_append, List.filter_append, List.filter_append]
  simp only [List.length_append]
  rw [conv1, conv1, conv1, conv1, ← List.countP_eq_length_filter,
    ← countP_status_split]

/-- The part-number rule exactly as the claim words it: one more than the
count of this category's existing non-rejected compilations (which would
include RENDERING ones).  Stated only to be compared against
`get_next_part_number`. -/
def claimed_part_number (db : DB) (category : String) : Nat :=
  (db.compilations.filter fun c =>
    c.category == category && !(c.status == CompilationStatus.rejected)).length + 1

/-- Configuration used in the concrete part-number scenario
(thresholds zeroed so a single legacy-score video suffices). -/
def c8_cfg : GrouperConfig :=
  { min_clips := 1, max_clips := 8, min_compilation_score := 0,
    min_visual_independence := 0, auto_approve_threshold := none,
    subcategory_name := fun _ _ => "Fails" }

/-- A same-category compilation currently RENDERING. -/
def c8_rendering_comp : Compilation :=
  { id := "r1", category := "fails", status := .rendering }

/-- One classified unassigned quality video. -/
def c8_video : Video :=
  { id := "v1", status := .classified, category := "fails", subcategory := "physical" }

/-- Store with one RENDERING compilation of the category. -/
def c8_db : DB := { videos := [c8_video], compilations := [c8_rendering_comp] }

/-- C8 counterexample: with one same-category RENDERING compilation in
the store, the created compilation's templated title carries part
number 1, while the claim's "count of non-rejected compilations plus 1"
demands 2 — `_get_next_part_number` does not fetch RENDERING
compilations. -/
theorem part_number_ignores_rendering_counterexample :
    (create_compilation_by_subcategory c8_cfg c8_db "c1" "fails" "physical" none).map
      (fun p => p.1.title) = some "Fails Compilation #1" ∧
    claimed_part_number c8_db "fails" = 2 ∧
    get_next_part_number c8_db "fails" = 1 := by
  refine ⟨?_, by decide, by decide⟩
  rfl

/-- C8 (amended): for every compilation created by
`create_compilation_by_subcategory`, the part number in its templated
title equals the count of this category's existing compilations in
status PENDING, REVIEW, APPROVED or UPLOADED (RENDERING and REJECTED
excluded) plus 1. -/
theorem part_number_counts_active_statuses (cfg : GrouperConfig) (db : DB)
    (fresh_id category subcategory : String) (num_clips : Option Nat) :
    ∀ comp db2,
      create_compilation_by_subcategory cfg db fresh_id category subcategory num_clips =
        some (comp, db2) →
      comp.title = cfg.subcategory_name category subcategory ++ " Compilation #" ++
        toString ((db.compilations.filter fun c => c.category == category &&
          (c.status == CompilationStatus.pending || c.status == CompilationStatus.review ||
           c.status == CompilationStatus.approved ||
           c.status == CompilationStatus.uploaded)).length + 1) := by
  intro comp db2 h
  obtain ⟨-, hc, -⟩ := create_by_subcat_elim h
  subst hc
  show cfg.subcategory_name category subcategory ++ " Compilation #" ++
      toString (get_next_part_number db category) = _
  rw [get_next_part_number_eq]

theorem part_number_counts_active_statuses_witness :
    ∃ p, create_compilation_by_subcategory c8_cfg c8_db "c1" "fails" "physical" none =
        some p ∧
      p.1.title = c8_cfg.subcategory_name "fails" "physical" ++ " Compilation #" ++
        toString ((c8_db.compilations.filter fun c => c.category == "fails" &&
          (c.status == CompilationStatus.pending || c.status == CompilationStatus.review ||
           c.status == CompilationStatus.approved ||
           c.status == CompilationStatus.uploaded)).length + 1) := by
  obtain ⟨p, hp⟩ : ∃ p,
      create_compilation_by_subcategory c8_cfg c8_db "c1" "fails" "physical" none = some p :=
    ⟨_, rfl⟩
  exact ⟨p, hp,
    part_number_counts_active_statuses c8_cfg c8_db "c1" "fails" "physical" none p.1 p.2 hp⟩

/-! ## C6: clip selection ranking -/

/-- The selection rule exactly as the claim words it: the top `num_clips`
quality-filtered items in descending order of the engagement proxy
`likes + 2 * shares`.  Stated only to be compared against
`select_best_videos`. -/
def claimed_select_top_engagement (cfg : GrouperConfig) (videos : List Video) (n : Nat) :
    List Video :=
  ((filter_quality_videos cfg videos).sorted_by fun a b =>
    decide (b.engagement_score ≤ a.engagement_score)).take n

/-- Quality-neutral configuration for the selection scenario. -/
def c6_cfg : GrouperConfig :=
  { min_clips := 1, max_clips := 8, min_compilation_score := 0,
    min_visual_independence := 0, auto_approve_threshold := none,
    subcategory_name := fun _ _ => "" }

/-- 5 likes but 10 shares: engagement proxy 25. -/
def c6_video_a : Video := { id := "a", likes := 5, shares := 10 }

/-- 6 likes, no shares: engagement proxy 6. -/
def c6_video_b : Video := { id := "b", likes := 6 }

/-- C6 counterexample: `_select_best_videos` sorts by `likes` alone, so
with one clip to pick it takes the 6-like/0-share video over the
5-like/10-share video, while the claim's `likes + 2*shares` ranking
would pick the latter. -/
theorem select_best_videos_ignores_shares_counterexample :
    select_best_videos c6_cfg [c6_video_a, c6_video_b] 1 = [c6_video_b] ∧
    claimed_select_top_engagement c6_cfg [c6_video_a, c6_video_b] 1 = [c6_video_a] ∧
    c6_video_a.engagement_score = 25 ∧ c6_video_b.engagement_score = 6 ∧
    c6_video_a ≠ c6_video_b := by
  refine ⟨by decide, by decide, by decide, by decide, by decide⟩

/-- C6 (amended): the selected clips are the top `num_clips`
quality-filtered items in descending order of `likes` alone (shares play
no role in the final selection sort): the selection is drawn from the
quality pool, is sorted by likes descending, has length
`min num_clips (quality count)`, and every unselected quality video has
at most as many likes as every selected one. -/
theorem select_best_videos_top_by_likes (cfg : GrouperConfig) (videos : List Video)
    (n : Nat) :
    (select_best_videos cfg videos n).length =
      min n (filter_quality_videos cfg videos).length ∧
    (∀ v ∈ select_best_videos cfg videos n, v ∈ filter_quality_videos cfg videos) ∧
    List.Pairwise (fun a b => b.likes ≤ a.likes) (select_best_videos cfg videos n) ∧
    (∀ v ∈ filter_quality_videos cfg videos, v ∉ select_best_videos cfg videos n →
      ∀ s ∈ select_best_videos cfg videos n, v.likes ≤ s.likes) := by
  have total : ∀ a b : Video,
      (decide (b.likes ≤ a.likes) || decide (a.likes ≤ b.likes)) = true := by
    intro a b
    simpa using le_total b.likes a.likes
  have trans : ∀ a b c : Video, decide (b.likes ≤ a.likes) = true →
      decide (c.likes ≤ b.likes) = true → decide (c.likes ≤ a.likes) = true := by
    intro a b c h1 h2
    simp only [decide_eq_true_iff] at h1 h2 ⊢
    exact le_trans h2 h1
  have hpair := pairwise_stable_sort _ total trans (filter_quality_videos cfg videos)
  refine ⟨?_, ?_, ?_, ?_⟩
  · simp only [select_best_videos, List.sorted_by]
    rw [List.length_take, stable_sort_length]
  · exact fun v hv => by
      simp only [select_best_videos, List.sorted_by] at hv
      exact (mem_stable_sort _).mp (List.take_subset _ _ hv)
  · exact List.Pairwise.imp (fun h => of_decide_eq_true h)
      (List.Pairwise.sublist (List.take_sublist n _) hpair)
  · intro v hvq hvn s hs
    simp only [select_best_videos, List.sorted_by] at hvn hs
    have hvsort : v ∈ stable_sort (fun a b => decide (b.likes ≤ a.likes))
        (filter_quality_videos cfg videos) := (mem_stable_sort _).mpr hvq
    rw [← List.take_append_drop n (stable_sort (fun a b => decide (b.likes ≤ a.likes))
      (filter_quality_videos cfg videos))] at hvsort
    rcases List.mem_append.mp hvsort with hvt | hvd
    · exact absurd hvt hvn
    · have hp := hpair
      rw [← List.take_append_drop n (stable_sort (fun a b => decide (b.likes ≤ a.likes))
        (filter_quality_videos cfg videos))] at hp
      have := (List.pairwise_append.mp hp).2.2 s hs v hvd
      exact of_decide_eq_true this

theorem select_best_videos_top_by_likes_witness :
    c6_video_a ∈ filter_quality_videos c6_cfg [c6_video_a, c6_video_b] ∧
    c6_video_a ∉ select_best_videos c6_cfg [c6_video_a, c6_video_b] 1 ∧
    c6_video_b ∈ select_best_videos c6_cfg [c6_video_a, c6_video_b] 1 ∧
    c6_video_a.likes ≤ c6_video_b.likes :=
  ⟨by decide, by decide, by decide,
    (select_best_videos_top_by_likes c6_cfg [c6_video_a, c6_video_b] 1).2.2.2
      c6_video_a (by decide) (by decide) c6_video_b (by decide)⟩

/-! ## C1: aggregate means and conjunctive auto-approval -/

/-- Arithmetic mean of the strictly positive entries, 0 when there are
none: the "mean ignoring zero/unset values" of the specification. -/
def mean_pos (l : List Rat) : Rat :=
  let pos := l.filter fun x => 0 < x
  if pos.isEmpty then 0 else pos.sum / (pos.length : Rat)

theorem calculate_confidence_score_eq (videos : List Video) :
    calculate_confidence_score videos =
      mean_pos (videos.map fun v => v.category_confidence) := by
  cases videos with
  | nil => simp [calculate_confidence_score, mean_pos]
  | cons v l => rfl

theorem calculate_compilation_quality_eq (videos : List Video) :
    calculate_compilation_quality videos =
      mean_pos (videos.map fun v => v.compilation_score) := by
  cases videos with
  | nil => simp [calculate_compilation_quality, mean_pos]
  | cons v l => rfl

theorem calculate_visual_independence_eq (videos : List Video) :
    calculate_visual_independence videos =
      mean_pos (videos.map fun v => v.visual_independence) := by
  cases videos with
  | nil => simp [calculate_visual_independence, mean_pos]
  | cons v l => rfl

theorem should_auto_approve_iff (t a b c : Rat) :
    should_auto_approve (some t) a b c = true ↔ (t ≤ a ∧ t ≤ b ∧ t ≤ c) := by
  simp [should_auto_approve]

/-- C1: for every compilation created by `create_compilation` or
`create_compilation_by_subcategory` (with an auto-approve threshold `t`
configured), the aggregate confidence is the arithmetic mean of the
selected items' confidences ignoring zero/unset values, and
`auto_approved` is true if and only if all three aggregate means
(confidence, compilation score, visual independence) reach `t`;
moreover aggregates (0.8, 0.9, 0.5) against threshold 0.75 give
`auto_approved = false` and (0.8, 0.9, 0.76) give `true`. -/
theorem compilation_aggregates_and_conjunctive_auto_approval
    (cfg : GrouperConfig) (t : Rat) (db : DB) (fresh_id category subcategory : String)
    (num_clips : Option Nat) (mixed_title : String → Nat → Nat → String)
    (ht : cfg.auto_approve_threshold = some t) :
    (∀ comp db2,
      create_compilation_by_subcategory cfg db fresh_id category subcategory num_clips =
        some (comp, db2) →
      ∃ selected : List Video,
        comp.video_ids = selected.map (fun v => v.id) ∧
        (∀ v ∈ selected, v ∈ db.videos) ∧
        comp.confidence_score = mean_pos (selected.map fun v => v.category_confidence) ∧
        (comp.auto_approved = true ↔
          (t ≤ mean_pos (selected.map fun v => v.category_confidence) ∧
           t ≤ mean_pos (selected.map fun v => v.compilation_score) ∧
           t ≤ mean_pos (selected.map fun v => v.visual_independence)))) ∧
    (∀ comp db2,
      create_compilation cfg db fresh_id category num_clips mixed_title =
        some (comp, db2) →
      ∃ selected : List Video,
        comp.video_ids = selected.map (fun v => v.id) ∧
        (∀ v ∈ selected, v ∈ db.videos) ∧
        comp.confidence_score = mean_pos (selected.map fun v => v.category_confidence) ∧
        (comp.auto_approved = true ↔
          (t ≤ mean_pos (selected.map fun v => v.category_confidence) ∧
           t ≤ mean_pos (selected.map fun v => v.compilation_score) ∧
           t ≤ mean_pos (selected.map fun v => v.visual_independence)))) ∧
    should_auto_approve (some (mkRat 3 4)) (mkRat 4 5) (mkRat 9 10) (mkRat 1 2) = false ∧
    should_auto_approve (some (mkRat 3 4)) (mkRat 4 5) (mkRat 9 10) (mkRat 76 100) = true := by
  have hsub : ∀ (sub : String) (comp : Compilation) (db2 : DB),
      create_compilation_by_subcategory cfg db fresh_id category sub num_clips =
        some (comp, db2) →
      ∃ selected : List Video,
        comp.video_ids = selected.map (fun v => v.id) ∧
        (∀ v ∈ selected, v ∈ db.videos) ∧
        comp.confidence_score = mean_pos (selected.map fun v => v.category_confidence) ∧
        (comp.auto_approved = true ↔
          (t ≤ mean_pos (selected.map fun v => v.category_confidence) ∧
           t ≤ mean_pos (selected.map fun v => v.compilation_score) ∧
           t ≤ mean_pos (selected.map fun v => v.visual_independence))) := by
    intro sub comp db2 h
    obtain ⟨-, hc, -⟩ := create_by_subcat_elim h
    subst hc
    refine ⟨subcat_selected cfg db category sub num_clips, rfl, ?_, ?_, ?_⟩
    · intro v hv
      have h1 := select_best_videos_subset _ _ _ v hv
      have h2 := filter_quality_videos_subset _ _ v h1
      exact get_videos_by_subcategory_subset _ _ _ v h2
    · show calculate_confidence_score _ = _
      exact calculate_confidence_score_eq _
    · show should_auto_approve cfg.auto_approve_threshold _ _ _ = true ↔ _
      rw [ht, calculate_confidence_score_eq, calculate_compilation_quality_eq,
        calculate_visual_independence_eq]
      exact should_auto_approve_iff t _ _ _
  refine ⟨hsub subcategory, ?_, by decide, by decide⟩
  intro comp db2 h
  simp only [create_compilation] at h
  split at h
  case h_1 best hpick => exact hsub best comp db2 h
  case h_2 hpick =>
    obtain ⟨hids, hconf, happ, -⟩ := create_mixed_elim h
    refine ⟨mixed_selected cfg db category num_clips, hids, ?_, ?_, ?_⟩
    · intro v hv
      have h1 := select_best_videos_subset _ _ _ v hv
      have h2 := filter_quality_videos_subset _ _ v h1
      exact get_videos_by_category_subset _ _ v h2
    · rw [hconf, calculate_confidence_score_eq]
    · rw [happ, ht, calculate_confidence_score_eq, calculate_compilation_quality_eq,
        calculate_visual_independence_eq]
      exact should_auto_approve_iff t _ _ _

/-- Auto-approval threshold 1 with legacy (all-zero-score) videos. -/
def c1_cfg : GrouperConfig :=
  { min_clips := 1, max_clips := 8, min_compilation_score := 0,
    min_visual_independence := 0, auto_approve_threshold := some 1,
    subcategory_name := fun _ _ => "Fails" }

/-- A classified unassigned legacy video. -/
def c1_video : Video :=
  { id := "v1", status := .classified, category := "fails", subcategory := "physical" }

/-- Store for the aggregate-scores scenario. -/
def c1_db : DB := { videos := [c1_video] }

theorem compilation_aggregates_and_conjunctive_auto_approval_witness :
    c1_cfg.auto_approve_threshold = some 1 ∧
    ∃ p, create_compilation_by_subcategory c1_cfg c1_db "c1" "fails" "physical" none =
        some p ∧
      ∃ selected : List Video,
        p.1.video_ids = selected.map (fun v => v.id) ∧
        (∀ v ∈ selected, v ∈ c1_db.videos) ∧
        p.1.confidence_score = mean_pos (selected.map fun v => v.category_confidence) ∧
        (p.1.auto_approved = true ↔
          ((1 : Rat) ≤ mean_pos (selected.map fun v => v.category_confidence) ∧
           (1 : Rat) ≤ mean_pos (selected.map fun v => v.compilation_score) ∧
           (1 : Rat) ≤ mean_pos (selected.map fun v => v.visual_independence))) := by
  refine ⟨rfl, ?_⟩
  obtain ⟨p, hp⟩ : ∃ p,
      create_compilation_by_subcategory c1_cfg c1_db "c1" "fails" "physical" none = some p :=
    ⟨_, rfl⟩
  exact ⟨p, hp,
    (compilation_aggregates_and_conjunctive_auto_approval c1_cfg 1 c1_db "c1" "fails"
      "physical" none (fun _ _ _ => "") rfl).1 p.1 p.2 hp⟩

/-! ## C9: pre-filter purity and oracle independence -/

/-- C9: the pre-filter is a pure deterministic function of the item's
description and hashtag list (any two items agreeing on those fields get
the same (reject, reason) pair, whatever the configured pattern lists
and regex engine); and for every item the pre-filter rejects, `classify`
returns the fixed pre-filter reject result — the same value for every
oracle, including a raising one, so the oracle is never consulted. -/
theorem pre_filter_pure_and_oracle_independent :
    (∀ (cls : ClassifierConfig) (v1 v2 : Video),
      v1.description = v2.description → v1.hashtags = v2.hashtags →
      pre_filter cls v1 = pre_filter cls v2) ∧
    (∀ (cls : ClassifierConfig) (v : Video) (reason : String)
        (o1 o2 : OracleOutcome),
      pre_filter cls v = (true, reason) →
      classify cls o1 v = Except.ok (pre_filter_reject_result reason) ∧
      classify cls o1 v = classify cls o2 v ∧
      (pre_filter_reject_result reason).category = "reject") := by
  constructor
  · intro cls v1 v2 hd hh
    simp only [pre_filter]
    rw [hd, hh]
  · intro cls v reason o1 o2 hpf
    have h1 : classify cls o1 v = Except.ok (pre_filter_reject_result reason) := by
      unfold classify
      rw [hpf]
    have h2 : classify cls o2 v = Except.ok (pre_filter_reject_result reason) := by
      unfold classify
      rw [hpf]
    exact ⟨h1, h1.trans h2.symm, rfl⟩

/-- The classifier configuration of the C9 scenario: "dance" on the
configured hard-reject list (modelled from the spec scenario; the
pattern lists live in a runtime YAML file). -/
def c9_cls : ClassifierConfig :=
  { regex_search_nocase := fun _ _ => false, regex_search := fun _ _ => false,
    trend_patterns := [], narrative_keywords := [], narrative_hashtags := [],
    hard_reject_keywords := ["dance"] }

/-- The spec's scenario item: a dance description and hashtag. -/
def c9_video : Video :=
  { id := "x", description := "check this dance out", hashtags := ["#dancechallenge"] }

/-- The same text on an item with different metadata. -/
def c9_video_alt : Video :=
  { c9_video with author := "someone", likes := 99, plays := 1000 }

theorem pre_filter_pure_and_oracle_independent_witness :
    pre_filter c9_cls c9_video = (true, "Hard reject keyword: dance") ∧
    pre_filter c9_cls c9_video = pre_filter c9_cls c9_video_alt ∧
    classify c9_cls (OracleOutcome.exn "network down") c9_video =
      Except.ok (pre_filter_reject_result "Hard reject keyword: dance") ∧
    classify c9_cls (OracleOutcome.exn "network down") c9_video =
      classify c9_cls (OracleOutcome.ok none) c9_video := by
  have hpf : pre_filter c9_cls c9_video = (true, "Hard reject keyword: dance") := by decide
  have h := pre_filter_pure_and_oracle_independent
  exact ⟨hpf, h.1 c9_cls c9_video c9_video_alt rfl rfl,
    (h.2 c9_cls c9_video _ (OracleOutcome.exn "network down") (OracleOutcome.ok none) hpf).1,
    (h.2 c9_cls c9_video _ (OracleOutcome.exn "network down") (OracleOutcome.ok none) hpf).2.1⟩

/-! ## C4: the acceptance gate -/

theorem find_map_update (l : List Video) (v : Video) (h : ∃ w ∈ l, w.id = v.id) :
    (l.map fun w => if w.id = v.id then v else w).find? (fun x => x.id == v.id) = some v := by
  induction l with
  | nil => simp at h
  | cons w l ih =>
    by_cases hw : w.id = v.id
    · simp [hw]
    · have hrec : ∃ x ∈ l, x.id = v.id := by
        rcases h with ⟨x, hx, hxid⟩
        rcases List.mem_cons.mp hx with heq | hx
        · exact absurd (heq ▸ hxid) hw
        · exact ⟨x, hx, hxid⟩
      simp only [List.map_cons, List.find?_cons]
      rw [if_neg hw]
      have : (w.id == v.id) = false := by
        simp [hw]
      rw [this]
      exact ih hrec

/-- After `update_video db vnew`, looking the row up by its id returns
the new value, provided some row with that id existed. -/
theorem get_video_update_of_mem (db : DB) (v vnew : Video) (hv : v ∈ db.videos)
    (hid : vnew.id = v.id) :
    get_video (update_video db vnew) v.id = some vnew := by
  unfold get_video update_video
  rw [← hid]
  exact find_map_update db.videos vnew ⟨v, hv, hid.symm⟩

/-- C4: `classify_and_update` applies its checks in order — reject
category, then confidence, then compilation score, then visual
independence — marking the item SKIPPED and returning false at the
first failing check, CLASSIFIED and true when all pass; an unparseable
oracle response parses to a reject result (hence SKIPPED), and an
oracle exception marks the item FAILED with the error text recorded and
returns false. -/
theorem classify_and_update_decision_order
    (cls : ClassifierConfig) (th : Thresholds) (db : DB) (v : Video)
    (raw : Option RawResult) (e : String) (hv : v ∈ db.videos)
    (hpf : (pre_filter cls v).1 = false) :
    ((parse_response raw).category = "reject" →
      (classify_and_update cls th (OracleOutcome.ok raw) db v).1 = false ∧
      ((get_video (classify_and_update cls th (OracleOutcome.ok raw) db v).2 v.id).map
        fun w => w.status) = some VideoStatus.skipped) ∧
    ((parse_response raw).category ≠ "reject" →
      (parse_response raw).confidence < th.min_confidence →
      (classify_and_update cls th (OracleOutcome.ok raw) db v).1 = false ∧
      ((get_video (classify_and_update cls th (OracleOutcome.ok raw) db v).2 v.id).map
        fun w => w.status) = some VideoStatus.skipped) ∧
    ((parse_response raw).category ≠ "reject" →
      ¬ (parse_response raw).confidence < th.min_confidence →
      (parse_response raw).compilation_score < th.min_compilation_score →
      (classify_and_update cls th (OracleOutcome.ok raw) db v).1 = false ∧
      ((get_video (classify_and_update cls th (OracleOutcome.ok raw) db v).2 v.id).map
        fun w => w.status) = some VideoStatus.skipped) ∧
    ((parse_response raw).category ≠ "reject" →
      ¬ (parse_response raw).confidence < th.min_confidence →
      ¬ (parse_response raw).compilation_score < th.min_compilation_score →
      (parse_response raw).visual_independence < th.min_visual_independence →
      (classify_and_update cls th (OracleOutcome.ok raw) db v).1 = false ∧
      ((get_video (classify_and_update cls th (OracleOutcome.ok raw) db v).2 v.id).map
        fun w => w.status) = some VideoStatus.skipped) ∧
    ((parse_response raw).category ≠ "reject" →
      ¬ (parse_response raw).confidence < th.min_confidence →
      ¬ (parse_response raw).compilation_score < th.min_compilation_score →
      ¬ (parse_response raw).visual_independence < th.min_visual_independence →
      (classify_and_update cls th (OracleOutcome.ok raw) db v).1 = true ∧
      ((get_video (classify_and_update cls th (OracleOutcome.ok raw) db v).2 v.id).map
        fun w => w.status) = some VideoStatus.classified) ∧
    (parse_response none).category = "reject" ∧
    ((classify_and_update cls th (OracleOutcome.exn e) db v).1 = false ∧
      ((get_video (classify_and_update cls th (OracleOutcome.exn e) db v).2 v.id).map
        fun w => (w.status, w.error)) = some (VideoStatus.failed, e)) := by
  rcases hp : pre_filter cls v with ⟨b, s⟩
  rw [hp] at hpf
  simp only at hpf
  subst hpf
  have hcl : classify cls (OracleOutcome.ok raw) v = Except.ok (parse_response raw) := by
    unfold classify
    rw [hp]
  have hclE : classify cls (OracleOutcome.exn e) v = Except.error e := by
    unfold classify
    rw [hp]
  have hrun : classify_and_update cls th (OracleOutcome.ok raw) db v =
      ((gate_decision th (parse_response raw)).1,
        update_video db
          { apply_result v (parse_response raw) with
            status := (gate_decision th (parse_response raw)).2, error := "" }) := by
    unfold classify_and_update
    rw [hcl]
  have hfind : ∀ (st : VideoStatus) (err : String),
      get_video (update_video db
        { apply_result v (parse_response raw) with status := st, error := err }) v.id =
      some { apply_result v (parse_response raw) with status := st, error := err } :=
    fun st err => get_video_update_of_mem db v _ hv rfl
  refine ⟨?_, ?_, ?_, ?_, ?_, rfl, ?_⟩
  · intro h1
    have hg : gate_decision th (parse_response raw) = (false, VideoStatus.skipped) := by
      unfold gate_decision
      rw [if_pos h1]
    simp only [hrun, hg]
    rw [hfind]
    exact ⟨trivial, rfl⟩
  · intro h1 h2
    have hg : gate_decision th (parse_response raw) = (false, VideoStatus.skipped) := by
      unfold gate_decision
      rw [if_neg h1, if_pos h2]
    simp only [hrun, hg]
    rw [hfind]
    exact ⟨trivial, rfl⟩
  · intro h1 h2 h3
    have hg : gate_decision th (parse_response raw) = (false, VideoStatus.skipped) := by
      unfold gate_decision
      rw [if_neg h1, if_neg h2, if_pos h3]
    simp only [hrun, hg]
    rw [hfind]
    exact ⟨trivial, rfl⟩
  · intro h1 h2 h3 h4
    have hg : gate_decision th (parse_response raw) = (false, VideoStatus.skipped) := by
      unfold gate_decision
      rw [if_neg h1, if_neg h2, if_neg h3, if_pos h4]
    simp only [hrun, hg]
    rw [hfind]
    exact ⟨trivial, rfl⟩
  · intro h1 h2 h3 h4
    have hg : gate_decision th (parse_response raw) = (true, VideoStatus.classified) := by
      unfold gate_decision
      rw [if_neg h1, if_neg h2, if_neg h3, if_neg h4]
    simp only [hrun, hg]
    rw [hfind]
    exact ⟨trivial, rfl⟩
  · have hrunE : classify_and_update cls th (OracleOutcome.exn e) db v =
        (false, update_video db { v with error := e, status := VideoStatus.failed }) := by
      unfold classify_and_update
      rw [hclE]
    have hE := get_video_update_of_mem db v
      { v with error := e, status := VideoStatus.failed } hv rfl
    simp only [hrunE]
    rw [hE]
    exact ⟨trivial, rfl⟩

/-- A benign classifier configuration (nothing configured to reject). -/
def c4_cls : ClassifierConfig :=
  { regex_search_nocase := fun _ _ => false, regex_search := fun _ _ => false,
    trend_patterns := [], narrative_keywords := [], narrative_hashtags := [],
    hard_reject_keywords := [] }

/-- Zero thresholds: the parsed result passes every check. -/
def c4_th : Thresholds :=
  { min_confidence := 0, min_compilation_score := 0, min_visual_independence := 0 }

/-- A downloaded item with an innocuous description. -/
def c4_video : Video := { id := "v4", description := "cat knocks over vase" }

/-- Store holding the item. -/
def c4_db : DB := { videos := [c4_video] }

/-- A well-formed oracle response. -/
def c4_raw : RawResult :=
  { category := "comedy", subcategory := "animal", confidence := 1,
    compilation_score := 1, visual_independence := 1 }

theorem classify_and_update_decision_order_witness :
    c4_video ∈ c4_db.videos ∧
    (pre_filter c4_cls c4_video).1 = false ∧
    (classify_and_update c4_cls c4_th (OracleOutcome.ok (some c4_raw)) c4_db c4_video).1 =
      true ∧
    ((get_video
        (classify_and_update c4_cls c4_th (OracleOutcome.ok (some c4_raw)) c4_db
          c4_video).2 "v4").map fun w => w.status) = some VideoStatus.classified := by
  have hv : c4_video ∈ c4_db.videos := List.Mem.head _
  have hpf : (pre_filter c4_cls c4_video).1 = false := by decide
  have h := classify_and_update_decision_order c4_cls c4_th c4_db c4_video (some c4_raw)
    "boom" hv hpf
  have h5 := h.2.2.2.2.1 (by decide) (by decide) (by decide) (by decide)
  exact ⟨hv, hpf, h5.1, h5.2⟩

/-! ## C7: mega-compilations and the missing settings attributes -/

/-- A downloaded source compilation. -/
def c7_source_1 : Video :=
  { id := "s1", status := .downloaded, is_source_compilation := true }

/-- A second downloaded source compilation. -/
def c7_source_2 : Video :=
  { id := "s2", status := .downloaded, is_source_compilation := true }

/-- Store with two downloaded source compilations. -/
def c7_db_two : DB := { videos := [c7_source_1, c7_source_2] }

/-- Store with a single downloaded source compilation. -/
def c7_db_one : DB := { videos := [c7_source_1] }

/-- C7 (code bug): with fewer than 2 downloaded source compilations
`create_mega_compilation` returns `None` before touching any ranking
setting, but with 2 available it raises
`AttributeError: MEGA_RANK_TARGET_DURATION` — the `Settings` class in
`config/settings.py` defines none of the `MEGA_RANK_*` attributes that
`_calculate_source_score` reads — instead of returning the auto-approved
compilation the claim (and the function's own docstring) describe. -/
theorem create_mega_compilation_settings_bug :
    create_mega_compilation runtime_mega_settings c7_db_one 0 "m1" none none =
      Except.ok none ∧
    create_mega_compilation runtime_mega_settings c7_db_two 0 "m1" none none =
      Except.error "AttributeError: MEGA_RANK_TARGET_DURATION" ∧
    (get_source_compilations c7_db_two).length = 2 :=
  ⟨rfl, rfl, rfl⟩

/-! ## C3: ungroup as a left-inverse -/

/-- C3: `ungroup_compilation` on a PENDING or REJECTED compilation
returns true, resets every video assigned to it to CLASSIFIED with
`compilation_id = ""` and `clip_order = 0`, leaves every other video
untouched, and deletes the compilation record; on any other status, or a
missing id, it returns false and changes nothing. -/
theorem ungroup_restores_members_and_deletes_record (db : DB) (cid : String) :
    (∀ comp, get_compilation db cid = some comp →
      (comp.status = CompilationStatus.pending ∨ comp.status = CompilationStatus.rejected) →
      (ungroup_compilation db cid).1 = true ∧
      (ungroup_compilation db cid).2.videos.length = db.videos.length ∧
      (∀ i (h1 : i < db.videos.length)
          (h2 : i < (ungroup_compilation db cid).2.videos.length),
        ((db.videos.get ⟨i, h1⟩).compilation_id = cid →
          (ungroup_compilation db cid).2.videos.get ⟨i, h2⟩ =
            { db.videos.get ⟨i, h1⟩ with
              compilation_id := "", clip_order := 0, status := .classified }) ∧
        ((db.videos.get ⟨i, h1⟩).compilation_id ≠ cid →
          (ungroup_compilation db cid).2.videos.get ⟨i, h2⟩ = db.videos.get ⟨i, h1⟩)) ∧
      (∀ c, c ∈ (ungroup_compilation db cid).2.compilations ↔
        (c ∈ db.compilations ∧ c.id ≠ cid)) ∧
      get_compilation (ungroup_compilation db cid).2 cid = none) ∧
    (∀ comp, get_compilation db cid = some comp →
      comp.status ≠ CompilationStatus.pending →
      comp.status ≠ CompilationStatus.rejected →
      ungroup_compilation db cid = (false, db)) ∧
    (get_compilation db cid = none → ungroup_compilation db cid = (false, db)) := by
  refine ⟨?_, ?_, ?_⟩
  · intro comp hcomp hst
    have hres : ungroup_compilation db cid = (true, delete_compilation db cid) := by
      unfold ungroup_compilation
      simp only [hcomp]
      rw [if_pos hst]
    rw [hres]
    refine ⟨rfl, by simp [delete_compilation], ?_, ?_, ?_⟩
    · intro i h1 h2
      constructor
      · intro hmem
        simp only [List.get_eq_getElem] at hmem
        simp only [delete_compilation, List.get_eq_getElem, List.getElem_map]
        rw [if_pos hmem]
      · intro hmem
        simp only [List.get_eq_getElem] at hmem
        simp only [delete_compilation, List.get_eq_getElem, List.getElem_map]
        rw [if_neg hmem]
    · intro c
      simp only [delete_compilation, List.mem_filter, bne_iff_ne]
    · unfold get_compilation
      rw [List.find?_eq_none]
      intro c hc
      simp only [delete_compilation, List.mem_filter, bne_iff_ne] at hc
      simpa using hc.2
  · intro comp hcomp hp hr
    unfold ungroup_compilation
    simp only [hcomp]
    rw [if_neg]
    rintro (h | h)
    · exact hp h
    · exact hr h
  · intro hnone
    unfold ungroup_compilation
    simp only [hnone]

/-- A PENDING compilation to ungroup. -/
def c3_comp : Compilation :=
  { id := "c1", category := "fails", status := .pending, video_ids := ["v1"] }

/-- A member video of the compilation. -/
def c3_member : Video :=
  { id := "v1", status := .grouped, compilation_id := "c1", clip_order := 1 }

/-- An unrelated video. -/
def c3_other : Video := { id := "v2", status := .classified }

/-- Store for the ungroup scenario. -/
def c3_db : DB := { videos := [c3_member, c3_other], compilations := [c3_comp] }

theorem ungroup_restores_members_and_deletes_record_witness :
    get_compilation c3_db "c1" = some c3_comp ∧
    (c3_comp.status = CompilationStatus.pending ∨
      c3_comp.status = CompilationStatus.rejected) ∧
    (ungroup_compilation c3_db "c1").1 = true ∧
    get_compilation (ungroup_compilation c3_db "c1").2 "c1" = none := by
  have h := (ungroup_restores_members_and_deletes_record c3_db "c1").1 c3_comp
    (by decide) (Or.inl rfl)
  exact ⟨by decide, Or.inl rfl, h.1, h.2.2.2.2⟩

/-! ## C2: the assignment invariant -/

/-- The per-item invariant: GROUPED or USED implies a nonempty
`compilation_id`, and an empty `compilation_id` implies neither GROUPED
nor USED. -/
def video_invariant (v : Video) : Prop :=
  ((v.status = VideoStatus.grouped ∨ v.status = VideoStatus.used) →
    v.compilation_id ≠ "") ∧
  (v.compilation_id = "" →
    ¬ (v.status = VideoStatus.grouped ∨ v.status = VideoStatus.used))

instance (v : Video) : Decidable (video_invariant v) := by
  unfold video_invariant
  infer_instance

/-- The store-wide invariant. -/
def db_invariant (db : DB) : Prop :=
  ∀ v ∈ db.videos, video_invariant v

instance (db : DB) : Decidable (db_invariant db) := by
  unfold db_invariant
  infer_instance

/-- The invariant after an optional creation result. -/
def db_invariant_opt : Option (Compilation × DB) → Prop
  | none => True
  | some p => db_invariant p.2

theorem db_invariant_update (db : DB) (v : Video) (hdb : db_invariant db)
    (hv : video_invariant v) : db_invariant (update_video db v) := by
  intro w hw
  simp only [update_video] at hw
  obtain ⟨x, hx, hxw⟩ := List.mem_map.mp hw
  by_cases hid : x.id = v.id
  · rw [if_pos hid] at hxw
    exact hxw ▸ hv
  · rw [if_neg hid] at hxw
    exact hxw ▸ hdb x hx

theorem db_invariant_assign_selected (db : DB) (cid : String) (selected : List Video)
    (hcid : cid ≠ "") (hdb : db_invariant db) :
    db_invariant (assign_selected db cid selected) := by
  unfold assign_selected
  generalize selected.enum = l
  induction l generalizing db with
  | nil => simpa using hdb
  | cons p l ih =>
    simp only [List.foldl_cons]
    exact ih _ (db_invariant_update _ _ hdb ⟨fun _ => hcid, fun h => absurd h hcid⟩)

theorem db_invariant_delete (db : DB) (cid : String) (hdb : db_invariant db) :
    db_invariant (delete_compilation db cid) := by
  intro w hw
  simp only [delete_compilation] at hw
  obtain ⟨x, hx, hxw⟩ := List.mem_map.mp hw
  by_cases hid : x.compilation_id = cid
  · rw [if_pos hid] at hxw
    refine hxw ▸ ⟨?_, ?_⟩
    · rintro (h | h) <;> simp at h
    · rintro - (h | h) <;> simp at h
  · rw [if_neg hid] at hxw
    exact hxw ▸ hdb x hx

theorem insert_compilation_videos {db db1 : DB} {c : Compilation}
    (h : insert_compilation db c = some db1) : db1.videos = db.videos := by
  simp only [insert_compilation] at h
  split at h
  · exact absurd h (by simp)
  · rw [Option.some.injEq] at h
    rw [← h]

theorem create_mega_from_sources_invariant (s : MegaSettings) (db : DB) (now : Int)
    (fresh_id : String) (ct : Option String) (ns : Option Nat) (sources : List Video)
    (hfresh : fresh_id ≠ "") (hdb : db_invariant db) :
    ∀ r, create_mega_from_sources s db now fresh_id ct ns sources = Except.ok r →
      db_invariant_opt r := by
  intro r hr
  unfold create_mega_from_sources at hr
  split at hr
  · rw [Except.ok.injEq] at hr
    rw [← hr]
    trivial
  · simp only [] at hr
    split at hr
    case h_1 => exact Except.noConfusion hr
    case h_2 scored hsc =>
      split at hr
      case h_1 =>
        rw [Except.ok.injEq] at hr
        rw [← hr]
        trivial
      case h_2 db1 hins =>
        rw [Except.ok.injEq] at hr
        rw [← hr]
        show db_invariant (assign_selected db1 fresh_id _)
        refine db_invariant_assign_selected _ _ _ hfresh ?_
        show db_invariant db1
        unfold db_invariant
        rw [insert_compilation_videos hins]
        exact hdb

/-- C2: every clustering operation (subcategory creation, the
mixed-category fallback, mega-compilation creation) and every ungroup
operation preserves the invariant that GROUPED/USED items carry a
nonempty `compilation_id` and items with an empty `compilation_id` are
neither GROUPED nor USED — provided the generated compilation id is
nonempty, as the 12-character UUID slice always is. -/
theorem grouping_ungrouping_preserves_assignment_invariant
    (cfg : GrouperConfig) (db : DB) (fresh_id category subcategory cid : String)
    (num_clips : Option Nat) (mixed_title : String → Nat → Nat → String)
    (s : MegaSettings) (now : Int) (ct : Option String) (ns : Option Nat)
    (hfresh : fresh_id ≠ "") (hdb : db_invariant db) :
    db_invariant_opt
      (create_compilation_by_subcategory cfg db fresh_id category subcategory num_clips) ∧
    db_invariant_opt (create_compilation cfg db fresh_id category num_clips mixed_title) ∧
    db_invariant (ungroup_compilation db cid).2 ∧
    db_invariant (delete_compilation db cid) ∧
    (∀ r, create_mega_compilation s db now fresh_id ct ns = Except.ok r →
      db_invariant_opt r) := by
  have hsub : ∀ (sub : String),
      db_invariant_opt
        (create_compilation_by_subcategory cfg db fresh_id category sub num_clips) := by
    intro sub
    cases h : create_compilation_by_subcategory cfg db fresh_id category sub num_clips with
    | none => trivial
    | some p =>
      have h2 : create_compilation_by_subcategory cfg db fresh_id category sub num_clips =
          some (p.1, p.2) := by rw [h]
      obtain ⟨-, -, db1, hins, hassign⟩ := create_by_subcat_elim h2
      show db_invariant p.2
      rw [hassign]
      refine db_invariant_assign_selected _ _ _ hfresh ?_
      show db_invariant db1
      unfold db_invariant
      rw [insert_compilation_videos hins]
      exact hdb
  refine ⟨hsub subcategory, ?_, ?_, db_invariant_delete db cid hdb, ?_⟩
  · cases hpick : pick_best_subcategory cfg db category
      (get_available_subcategories db category cfg.min_clips) with
    | some best =>
      have : create_compilation cfg db fresh_id category num_clips mixed_title =
          create_compilation_by_subcategory cfg db fresh_id category best num_clips := by
        unfold create_compilation
        simp only [hpick]
      rw [this]
      exact hsub best
    | none =>
      have : create_compilation cfg db fresh_id category num_clips mixed_title =
          create_compilation_mixed cfg db fresh_id category num_clips mixed_title := by
        unfold create_compilation
        simp only [hpick]
      rw [this]
      cases h : create_compilation_mixed cfg db fresh_id category num_clips mixed_title with
      | none => trivial
      | some p =>
        have h2 : create_compilation_mixed cfg db fresh_id category num_clips mixed_title =
            some (p.1, p.2) := by rw [h]
        obtain ⟨-, -, -, db1, comp1, hins, hassign⟩ := create_mixed_elim h2
        show db_invariant p.2
        rw [hassign]
        refine db_invariant_assign_selected _ _ _ hfresh ?_
        show db_invariant db1
        unfold db_invariant
        rw [insert_compilation_videos hins]
        exact hdb
  · unfold ungroup_compilation
    split
    · exact hdb
    · split
      · exact db_invariant_delete db cid hdb
      · exact hdb
  · intro r hr
    unfold create_mega_compilation at hr
    exact create_mega_from_sources_invariant s db now fresh_id ct ns _ hfresh hdb r hr

/-- A store with one properly grouped item and one classified item. -/
def c2_db : DB :=
  { videos := [{ id := "g1", status := .grouped, compilation_id := "k1" },
               { id := "f1", status := .classified }],
    compilations := [{ id := "k1", category := "fails", status := .pending,
                       video_ids := ["g1"] }] }

theorem grouping_ungrouping_preserves_assignment_invariant_witness :
    ("fresh1" : String) ≠ "" ∧ db_invariant c2_db ∧
    db_invariant (ungroup_compilation c2_db "k1").2 ∧
    db_invariant (delete_compilation c2_db "k1") := by
  have h := grouping_ungrouping_preserves_assignment_invariant c1_cfg c2_db "fresh1"
    "fails" "physical" "k1" none (fun _ _ _ => "") runtime_mega_settings 0 none none
    (by decide) (by decide)
  exact ⟨by decide, by decide, h.2.2.1, h.2.2.2.1⟩

/-! ## C5: daily caps and cool-down in routing -/

theorem rule_candidate_under_cap {db : DB} {comp : Compilation} {p : Platform}
    {rule : RoutingRule} {a : Account} {score : Int}
    (h : rule_candidate db comp p rule = some (a, score)) :
    a.uploads_today < a.daily_upload_limit := by
  unfold rule_candidate at h
  split at h
  · exact Option.noConfusion h
  case h_2 a0 hacc =>
    split at h
    · exact Option.noConfusion h
    split at h
    · exact Option.noConfusion h
    split at h
    · exact Option.noConfusion h
    split at h
    case isTrue => exact Option.noConfusion h
    case isFalse hcap =>
      rw [Option.some.injEq, Prod.mk.injEq] at h
      exact h.1 ▸ Int.not_le.mp hcap

theorem upload_eligible_facts {db : DB} {now : Int} {u : Upload} {a : Account}
    (hacc : get_account db u.account_id = some a)
    (he : upload_eligible db now u = true) :
    a.uploads_today < a.daily_upload_limit ∧
    (∀ t, a.last_upload_at = some t → MIN_UPLOAD_INTERVAL_MINUTES ≤ now - t) := by
  unfold upload_eligible at he
  simp only [hacc] at he
  simp only [Bool.and_eq_true] at he
  obtain ⟨⟨hcan, hcool⟩, -⟩ := he
  constructor
  · unfold can_upload at hcan
    simp only [hacc, Bool.and_eq_true, decide_eq_true_iff] at hcan
    exact hcan.2
  · intro t ht
    rw [ht] at hcool
    simp only [Bool.not_eq_eq_eq_not, Bool.not_true, decide_eq_false_iff_not] at hcool
    exact Int.not_lt.mp hcool

theorem get_next_upload_go_spec (db : DB) (now : Int) :
    ∀ (l : List Upload) (u : Upload) (a : Account) (c : Compilation),
      get_next_upload_go db now l = some (u, a, c) →
      get_account db u.account_id = some a ∧
      get_compilation db u.compilation_id = some c ∧
      upload_eligible db now u = true ∧
      ∃ l1 l2, l = l1 ++ u :: l2 ∧ ∀ u2 ∈ l1, upload_eligible db now u2 = false := by
  intro l
  induction l with
  | nil =>
    intro u a c h
    exact Option.noConfusion h
  | cons u0 rest ih =>
    intro u a c h
    unfold get_next_upload_go at h
    cases hacc : get_account db u0.account_id with
    | none =>
      simp only [hacc] at h
      obtain ⟨h1, h2, h3, l1, l2, hl, hall⟩ := ih u a c h
      refine ⟨h1, h2, h3, u0 :: l1, l2, by rw [hl, List.cons_append], ?_⟩
      intro u2 hu2
      rcases List.mem_cons.mp hu2 with heq | hu2
      · rw [heq]
        unfold upload_eligible
        simp only [hacc]
      · exact hall u2 hu2
    | some a0 =>
      simp only [hacc] at h
      split at h
      case isTrue hcan =>
        obtain ⟨h1, h2, h3, l1, l2, hl, hall⟩ := ih u a c h
        refine ⟨h1, h2, h3, u0 :: l1, l2, by rw [hl, List.cons_append], ?_⟩
        intro u2 hu2
        rcases List.mem_cons.mp hu2 with heq | hu2
        · rw [heq]
          have hfalse : can_upload db u0.account_id = false := by
            revert hcan
            cases can_upload db u0.account_id <;> simp
          unfold upload_eligible
          simp only [hacc, hfalse, Bool.false_and]
        · exact hall u2 hu2
      case isFalse hcan =>
        split at h
        case isTrue hcool =>
          obtain ⟨h1, h2, h3, l1, l2, hl, hall⟩ := ih u a c h
          refine ⟨h1, h2, h3, u0 :: l1, l2, by rw [hl, List.cons_append], ?_⟩
          intro u2 hu2
          rcases List.mem_cons.mp hu2 with heq | hu2
          · rw [heq]
            unfold upload_eligible
            simp only [hacc, hcool, Bool.not_true, Bool.and_false, Bool.false_and]
          · exact hall u2 hu2
        case isFalse hcool =>
          split at h
          case h_1 hcomp =>
            obtain ⟨h1, h2, h3, l1, l2, hl, hall⟩ := ih u a c h
            refine ⟨h1, h2, h3, u0 :: l1, l2, by rw [hl, List.cons_append], ?_⟩
            intro u2 hu2
            rcases List.mem_cons.mp hu2 with heq | hu2
            · rw [heq]
              unfold upload_eligible
              simp only [hacc, hcomp, Option.isSome_none, Bool.and_false]
            · exact hall u2 hu2
          case h_2 c0 hcomp =>
            rw [Option.some.injEq, Prod.mk.injEq, Prod.mk.injEq] at h
            obtain ⟨hu, ha, hc⟩ := h
            subst hu
            subst ha
            subst hc
            have hcantrue : can_upload db u0.account_id = true := by
              revert hcan
              cases can_upload db u0.account_id <;> simp
            have hcoolfalse :
                (match a0.last_upload_at with
                 | some t => decide (now - t < MIN_UPLOAD_INTERVAL_MINUTES)
                 | none => false) = false := by
              revert hcool
              cases (match a0.last_upload_at with
                | some t => decide (now - t < MIN_UPLOAD_INTERVAL_MINUTES)
                | none => false) <;> simp
            refine ⟨hacc, hcomp, ?_, [], rest, rfl, by simp⟩
            unfold upload_eligible
            simp only [hacc, hcantrue, hcoolfalse, hcomp, Option.isSome_some,
              Bool.not_false, Bool.and_true, Bool.true_and]

/-- C5: an account at or over its daily cap is never produced by
`_get_matching_accounts`, and `get_next_upload` only ever returns an
upload whose account is under its daily cap and outside the 30-minute
cool-down window; the returned triple is the first eligible one in
pending order (every pending upload of the platform before it fails the
eligibility checks), or the result is `none`. -/
theorem upload_routing_respects_caps_and_cooldown (db : DB) (comp : Compilation)
    (p : Platform) (now : Int) :
    (∀ a score, (a, score) ∈ get_matching_accounts db comp p →
      a.uploads_today < a.daily_upload_limit) ∧
    (∀ u a c, get_next_upload db p now = some (u, a, c) →
      get_account db u.account_id = some a ∧
      get_compilation db u.compilation_id = some c ∧
      a.uploads_today < a.daily_upload_limit ∧
      (∀ t, a.last_upload_at = some t → MIN_UPLOAD_INTERVAL_MINUTES ≤ now - t) ∧
      upload_eligible db now u = true ∧
      ∃ l1 l2, router_get_pending_uploads db p none = l1 ++ u :: l2 ∧
        ∀ u2 ∈ l1, upload_eligible db now u2 = false) := by
  constructor
  · intro a score hmem
    unfold get_matching_accounts at hmem
    obtain ⟨rule, -, hcand⟩ := List.mem_filterMap.mp (mem_sorted_by.mp hmem)
    exact rule_candidate_under_cap hcand
  · intro u a c h
    unfold get_next_upload at h
    obtain ⟨hacc, hcomp, helig, l1, l2, hl, hall⟩ := get_next_upload_go_spec db now _ u a c h
    obtain ⟨hcap, hcool⟩ := upload_eligible_facts hacc helig
    refine ⟨hacc, hcomp, hcap, hcool, helig, l1,
      l2 ++ ((db_get_pending_uploads db none).drop 10).filter (fun u2 => u2.platform == p),
      ?_, hall⟩
    have hsplit : router_get_pending_uploads db p none =
        router_get_pending_uploads db p (some 10) ++
        ((db_get_pending_uploads db none).drop 10).filter (fun u2 => u2.platform == p) := by
      unfold router_get_pending_uploads db_get_pending_uploads
      simp only []
      rw [← List.filter_append, List.take_append_drop]
    rw [hsplit, hl]
    simp [List.append_assoc]

/-- An active credentialed account with remaining capacity. -/
def c5_account : Account :=
  { id := "a1", platform := .youtube, name := "acct", content_strategy := .mixed,
    credentials_encrypted := "x", daily_upload_limit := 3, uploads_today := 0,
    last_upload_at := none, is_active := true }

/-- A routing rule pointing the category at the account. -/
def c5_rule : RoutingRule :=
  { id := "r1", account_id := "a1", category := "fails", min_confidence := 0,
    priority := 1 }

/-- An approved compilation of the category. -/
def c5_comp : Compilation :=
  { id := "c5", category := "fails", status := .approved, confidence_score := 1 }

/-- A pending upload for the compilation on the account. -/
def c5_upload : Upload :=
  { id := "u1", compilation_id := "c5", account_id := "a1", platform := .youtube }

/-- Store for the routing scenario. -/
def c5_db : DB :=
  { compilations := [c5_comp], accounts := [c5_account], uploads := [c5_upload],
    routing_rules := [c5_rule] }

theorem upload_routing_respects_caps_and_cooldown_witness :
    (c5_account, (13 : Int)) ∈ get_matching_accounts c5_db c5_comp Platform.youtube ∧
    c5_account.uploads_today < c5_account.daily_upload_limit ∧
    get_next_upload c5_db Platform.youtube 1000 = some (c5_upload, c5_account, c5_comp) ∧
    upload_eligible c5_db 1000 c5_upload = true := by
  have h := upload_routing_respects_caps_and_cooldown c5_db c5_comp Platform.youtube 1000
  have hmem : (c5_account, (13 : Int)) ∈ get_matching_accounts c5_db c5_comp
      Platform.youtube := by decide
  have hnext : get_next_upload c5_db Platform.youtube 1000 =
      some (c5_upload, c5_account, c5_comp) := by decide
  exact ⟨hmem, h.1 c5_account 13 hmem, hnext,
    (h.2 c5_upload c5_account c5_comp hnext).2.2.2.2.1⟩

/-! ## C10: no duplicate (compilation, account) uploads -/

/-- The existence check runs with no status filter: when it reports
`false`, no stored upload row — FAILED and SUCCESS rows included —
carries the (compilation, account) pair. -/
theorem upload_exists_false_elim {db : DB} {cid aid : String}
    (h : upload_exists_for_compilation_account db cid aid = false) :
    ∀ u ∈ db.uploads, u.compilation_id = cid → u.account_id ≠ aid := by
  intro u hu hcid haid
  unfold upload_exists_for_compilation_account at h
  rw [← Bool.not_eq_true, List.any_eq_true] at h
  exact h ⟨u, hu, by simp [hcid, haid]⟩

/-- A successful insert appends the row to the upload table. -/
theorem insert_upload_uploads {db d1 : DB} {u : Upload}
    (h : insert_upload db u = some d1) : d1.uploads = db.uploads ++ [u] := by
  unfold insert_upload at h
  split at h
  · exact absurd h (by simp)
  · rw [Option.some.injEq] at h
    rw [← h]

/-- Growing the upload table can only turn the existence check from
`false` to `true`, never conversely. -/
theorem upload_exists_of_subset {db d : DB} {cid aid : String}
    (hsub : ∀ u ∈ db.uploads, u ∈ d.uploads)
    (h : upload_exists_for_compilation_account d cid aid = false) :
    upload_exists_for_compilation_account db cid aid = false := by
  unfold upload_exists_for_compilation_account at h ⊢
  rw [← Bool.not_eq_true, List.any_eq_true] at h ⊢
  rintro ⟨x, hx, hpx⟩
  exact h ⟨x, hsub x hx, hpx⟩

/-- Loop invariant of the `route_compilation` fold relative to the
starting store `db0`: every accumulated upload carries the compilation's
id and lives in the current store, the current store still holds every
row of `db0`, no accumulated upload collides with a pre-existing
(compilation, account) pair of `db0`, and the accumulated uploads use
pairwise-distinct accounts. -/
def route_inv (db0 : DB) (comp : Compilation) (st : DB × List Upload × Nat) : Prop :=
  (∀ u ∈ st.2.1, u.compilation_id = comp.id) ∧
  (∀ u ∈ st.2.1, u ∈ st.1.uploads) ∧
  (∀ u0 ∈ db0.uploads, u0 ∈ st.1.uploads) ∧
  (∀ u ∈ st.2.1, upload_exists_for_compilation_account db0 comp.id u.account_id = false) ∧
  List.Pairwise (fun x y => x.account_id ≠ y.account_id) st.2.1

/-- One `route_step` iteration preserves the routing invariant: an
upload is only created after the any-status existence check failed in
the current store, which extends `db0`. -/
theorem route_step_inv (db0 : DB) (comp : Compilation) (fresh : Nat → String)
    (st : DB × List Upload × Nat) (p : Platform) (h : route_inv db0 comp st) :
    route_inv db0 comp (route_step comp fresh st p) := by
  obtain ⟨hcid, hmem, hdb0, hex, hpair⟩ := h
  unfold route_step
  split
  · exact ⟨hcid, hmem, hdb0, hex, hpair⟩
  case h_2 a _ =>
    split
    · exact ⟨hcid, hmem, hdb0, hex, hpair⟩
    case isFalse hcur =>
      split
      case h_1 d1 hins =>
        have hups := insert_upload_uploads hins
        have hfalse : upload_exists_for_compilation_account st.1 comp.id a.id = false :=
          Bool.eq_false_iff.mpr hcur
        refine ⟨?_, ?_, ?_, ?_, ?_⟩
        · intro w hw
          rcases List.mem_append.mp hw with hw | hw
          · exact hcid w hw
          · rw [List.mem_singleton.mp hw]
        · intro w hw
          rw [hups]
          rcases List.mem_append.mp hw with hw | hw
          · exact List.mem_append_left _ (hmem w hw)
          · exact List.mem_append_right _ hw
        · intro u0 hu0
          rw [hups]
          exact List.mem_append_left _ (hdb0 u0 hu0)
        · intro w hw
          rcases List.mem_append.mp hw with hw | hw
          · exact hex w hw
          · rw [List.mem_singleton.mp hw]
            exact upload_exists_of_subset hdb0 hfalse
        · refine List.pairwise_append.mpr ⟨hpair, ?_, ?_⟩
          · simp
          · intro x hx y hy
            rw [List.mem_singleton.mp hy]
            exact upload_exists_false_elim hfalse x (hmem x hx) (hcid x hx)
      case h_2 hins =>
        exact ⟨hcid, hmem, hdb0, hex, hpair⟩

/-- The whole platform fold preserves the routing invariant. -/
theorem route_fold_inv (db0 : DB) (comp : Compilation) (fresh : Nat → String) :
    ∀ (ps : List Platform) (st : DB × List Upload × Nat), route_inv db0 comp st →
      route_inv db0 comp (ps.foldl (route_step comp fresh) st)
  | [], _, h => h
  | p :: ps, st, h =>
    route_fold_inv db0 comp fresh ps _ (route_step_inv db0 comp fresh st p h)

/-- Invariant of the `retry_failed_uploads` fold: the upload-table
length never changes and every row keeps the (id, compilation, account)
identity of a row of the starting store — a retry resets an existing
row, it never adds one. -/
def retry_inv (db0 : DB) (st : DB × Nat) : Prop :=
  st.1.uploads.length = db0.uploads.length ∧
  ∀ u2 ∈ st.1.uploads, ∃ u0 ∈ db0.uploads,
    u2.id = u0.id ∧ u2.compilation_id = u0.compilation_id ∧
    u2.account_id = u0.account_id

/-- One `retry_step` iteration preserves the retry invariant:
`update_upload` maps over the table in place. -/
theorem retry_step_inv (db0 : DB) (m : Nat) (st : DB × Nat) (u : Upload)
    (hu : u ∈ db0.uploads) (h : retry_inv db0 st) :
    retry_inv db0 (retry_step m st u) := by
  obtain ⟨hlen, hrow⟩ := h
  unfold retry_step
  split
  · refine ⟨?_, ?_⟩
    · simpa [update_upload] using hlen
    · intro u2 hu2
      simp only [update_upload, List.mem_map] at hu2
      obtain ⟨x, hx, hxe⟩ := hu2
      by_cases hid : x.id = u.id
      · rw [if_pos hid] at hxe
        rw [← hxe]
        exact ⟨u, hu, rfl, rfl, rfl⟩
      · rw [if_neg hid] at hxe
        rw [← hxe]
        exact hrow x hx
  · exact ⟨hlen, hrow⟩

/-- The whole retry fold preserves the retry invariant, given that the
folded list is drawn from the starting store's rows. -/
theorem retry_fold_inv (db0 : DB) (m : Nat) :
    ∀ (fl : List Upload), (∀ u ∈ fl, u ∈ db0.uploads) → ∀ (st : DB × Nat),
      retry_inv db0 st → retry_inv db0 (fl.foldl (retry_step m) st)
  | [], _, _, h => h
  | u :: fl, hsub, st, h =>
    retry_fold_inv db0 m fl (fun w hw => hsub w (List.mem_cons_of_mem u hw)) _
      (retry_step_inv db0 m st u (hsub u (List.mem_cons_self u fl)) h)

/-- C10: `route_compilation` never creates a second upload for the same
(compilation, account) pair.  Every upload it creates targets an account
for which the starting store held no upload row for this compilation of
ANY status — so an existing terminal FAILED or SUCCESS row also blocks
the pair — and the created uploads use pairwise-distinct accounts.
Recovery of a failed upload happens only through `retry_failed_uploads`,
which never adds a row: the upload-table length is unchanged and every
resulting row keeps the (id, compilation, account) identity of an
original row (only its status and counters change on the reset to
PENDING). -/
theorem route_compilation_never_duplicates_pair (db : DB) (comp : Compilation)
    (platforms : List Platform) (fresh : Nat → String) (max_retries : Nat) :
    (∀ u ∈ (route_compilation db comp platforms fresh).2,
        upload_exists_for_compilation_account db comp.id u.account_id = false) ∧
    (∀ u ∈ (route_compilation db comp platforms fresh).2, ∀ u0 ∈ db.uploads,
        u0.compilation_id = comp.id → u0.account_id ≠ u.account_id) ∧
    List.Pairwise (fun x y => x.account_id ≠ y.account_id)
      (route_compilation db comp platforms fresh).2 ∧
    (retry_failed_uploads db max_retries).1.uploads.length = db.uploads.length ∧
    ∀ u2 ∈ (retry_failed_uploads db max_retries).1.uploads, ∃ u0 ∈ db.uploads,
      u2.id = u0.id ∧ u2.compilation_id = u0.compilation_id ∧
      u2.account_id = u0.account_id := by
  have hroute : (∀ u ∈ (route_compilation db comp platforms fresh).2,
      upload_exists_for_compilation_account db comp.id u.account_id = false) ∧
      List.Pairwise (fun x y => x.account_id ≠ y.account_id)
        (route_compilation db comp platforms fresh).2 := by
    unfold route_compilation
    split
    · exact ⟨fun u hu => absurd hu (List.not_mem_nil u), List.Pairwise.nil⟩
    · have h := route_fold_inv db comp fresh platforms (db, [], 0)
        ⟨fun u hu => absurd hu (List.not_mem_nil u),
         fun u hu => absurd hu (List.not_mem_nil u),
         fun u0 hu0 => hu0,
         fun u hu => absurd hu (List.not_mem_nil u),
         List.Pairwise.nil⟩
      exact ⟨h.2.2.2.1, h.2.2.2.2⟩
  have hretry : retry_inv db (retry_failed_uploads db max_retries) := by
    unfold retry_failed_uploads
    refine retry_fold_inv db max_retries _ ?_ (db, 0)
      ⟨rfl, fun u2 hu2 => ⟨u2, hu2, rfl, rfl, rfl⟩⟩
    intro u hu
    unfold get_uploads_by_status at hu
    exact List.mem_of_mem_filter (mem_sorted_by.mp hu)
  refine ⟨hroute.1, ?_, hroute.2, hretry.1, hretry.2⟩
  intro u hu u0 hu0 hcid0
  exact upload_exists_false_elim (hroute.1 u hu) u0 hu0 hcid0

/-- An approved compilation to route. -/
def c10_comp : Compilation :=
  { id := "c10", category := "fails", status := .approved, confidence_score := 1 }

/-- A YouTube account that already has a FAILED upload for the
compilation. -/
def c10_account_a : Account :=
  { id := "a1", platform := .youtube, name := "ya", credentials_encrypted := "k",
    daily_upload_limit := 3 }

/-- A TikTok account with no upload for the compilation yet. -/
def c10_account_b : Account :=
  { id := "a2", platform := .tiktok, name := "ta", credentials_encrypted := "k",
    daily_upload_limit := 3 }

/-- The pre-existing terminal FAILED upload for (c10, a1). -/
def c10_failed : Upload :=
  { id := "u0", compilation_id := "c10", account_id := "a1", platform := .youtube,
    status := .failed, retry_count := 1 }

/-- Deterministic stand-in for the UUID generator. -/
def c10_fresh : Nat → String := fun n => "new" ++ toString n

/-- The single upload the router creates in the scenario: the YouTube
platform is blocked by the FAILED row, TikTok gets a fresh PENDING
upload. -/
def c10_new : Upload :=
  { id := "new0", compilation_id := "c10", account_id := "a2", platform := .tiktok,
    status := .pending }

/-- Store for the duplicate-pair scenario. -/
def c10_db : DB :=
  { compilations := [c10_comp], accounts := [c10_account_a, c10_account_b],
    uploads := [c10_failed] }

theorem route_compilation_never_duplicates_pair_witness :
    c10_failed ∈ c10_db.uploads ∧ c10_failed.status = UploadStatus.failed ∧
    (route_compilation c10_db c10_comp [Platform.youtube, Platform.tiktok] c10_fresh).2 =
      [c10_new] ∧
    upload_exists_for_compilation_account c10_db c10_comp.id c10_new.account_id = false ∧
    c10_failed.account_id ≠ c10_new.account_id := by
  have hm : c10_new ∈
      (route_compilation c10_db c10_comp [Platform.youtube, Platform.tiktok] c10_fresh).2 := by
    decide
  have h := route_compilation_never_duplicates_pair c10_db c10_comp
    [Platform.youtube, Platform.tiktok] c10_fresh 3
  exact ⟨by decide, by decide, by decide, h.1 c10_new hm,
    h.2.1 c10_new hm c10_failed (by decide) (by decide)⟩

end Pipeline
